import Mathlib

/-!
Shallow embedding of the live bet progress engine of `src/live_tracker.py`
(class `LiveGameTracker`).  Python floats are modelled by `PyF`, exact
rational numbers kept as unnormalized `num/den` fractions with a positive
denominator: every float value this code manipulates (0.5, 0.8, 1.5, 2.5,
whole-number stats, …) is exactly representable, and every float comparison
in the source is a comparison of such exactly-represented values, so exact
rational arithmetic is the intended semantics.  Comparisons cross-multiply;
denominators stay positive at every construction site (the only division,
`current / target * 100`, is guarded by `target > 0` in the source).
SQL rows are modelled as Lean structures, tables as lists, `fetchone` as
`List.find?`, and `ON CONFLICT DO UPDATE` as a keyed upsert.  Code that can
raise (`float(None)`) returns `Except String`.  Runtime/persistence
failures that the orchestrator catches per game and per bet are modelled by
fault oracles (`gameFault`, `betFault`), mirroring the `try/except` blocks
of `track_all_live_games`.
-/

namespace LiveTracker

/-- A Python float: an exact rational `num/den`, `den > 0`, not necessarily
reduced.  Numeric equality is `feq`, never structural equality. -/
structure PyF where
  num : Int
  den : Int
  deriving DecidableEq

instance (n : Nat) : OfNat PyF n := ⟨⟨Int.ofNat n, 1⟩⟩

def fofInt (n : Int) : PyF := ⟨n, 1⟩

/-- Numeric equality of floats (Python `==`). -/
def feq (a b : PyF) : Bool := a.num * b.den == b.num * a.den

/-- Python `<=` on floats. -/
def fle (a b : PyF) : Bool := decide (a.num * b.den ≤ b.num * a.den)

/-- Python `<` on floats. -/
def flt (a b : PyF) : Bool := decide (a.num * b.den < b.num * a.den)

def fadd (a b : PyF) : PyF := ⟨a.num * b.den + b.num * a.den, a.den * b.den⟩

def fsub (a b : PyF) : PyF := ⟨a.num * b.den - b.num * a.den, a.den * b.den⟩

def fmul (a b : PyF) : PyF := ⟨a.num * b.num, a.den * b.den⟩

/-- Float division; used only where the source has checked the divisor is
positive, which keeps the denominator positive. -/
def fdivP (a b : PyF) : PyF := ⟨a.num * b.den, a.den * b.num⟩

def fabs (a : PyF) : PyF := ⟨|a.num|, a.den⟩

/-- Python `min`. -/
def fmin (a b : PyF) : PyF := if fle a b then a else b

/-- `math.floor` on an exact float. -/
def ffloor (a : PyF) : Int := Int.fdiv a.num a.den

/-- `math.ceil` on an exact float. -/
def fceil (a : PyF) : Int := -(Int.fdiv (-a.num) a.den)

/-- Python `int()`: truncation toward zero. -/
def ftrunc (a : PyF) : Int := Int.tdiv a.num a.den

/-- Python `str.lower()` (ASCII text throughout this code). -/
def pyLower (s : String) : String := ⟨s.data.map Char.toLower⟩

/-- A row of the `bets` table (the columns read by the tracker). -/
structure BetRow where
  bet_id : Nat
  game_id : Nat
  player_id : Option Nat
  pitcher_id : Option Nat
  team_id : Option Nat
  bet_type : String
  target_value : Option PyF
  operator : Option String
  units : PyF
  community_id : Nat
  status : String
  result_value : Option PyF := none
  deriving DecidableEq

/-- A row of the `games` table.  `game_date_today` models the
`g.game_date = DATE(...NOW())` filter of the active-bet query. -/
structure GameRow where
  game_id : Nat
  status : String
  inning : Nat
  inning_half : String
  home_score : Int
  away_score : Int
  home_team_id : Nat
  away_team_id : Nat
  game_date_today : Bool
  deriving DecidableEq

/-- A row of `player_game_stats`.  `singles` is stored by
`update_player_stats` as `hits - doubles - triples - home_runs` and may in
principle go negative on corrupt upstream data, hence `Int`. -/
structure PlayerStatsRow where
  game_id : Nat
  player_id : Nat
  at_bats : Int
  hits : Int
  singles : Int
  doubles : Int
  triples : Int
  home_runs : Int
  runs : Int
  rbis : Int
  walks : Int
  strikeouts : Int
  stolen_bases : Int
  deriving DecidableEq

/-- A row of `pitcher_game_stats`. -/
structure PitcherStatsRow where
  game_id : Nat
  pitcher_id : Nat
  innings_pitched : PyF
  strikeouts : Int
  walks_allowed : Int
  hits_allowed : Int
  earned_runs : Int
  home_runs_allowed : Int
  pitch_count : Int
  deriving DecidableEq

/-- The value stored under a key of the `milestone_alerts` JSON object
(`hit_at` wall-clock timestamp elided: no claim mentions it). -/
structure AlertRec where
  inning : Nat
  value : PyF
  deriving DecidableEq

/-- The Python value assigned to `milestone_hit`, which is turned into the
JSON key `str(milestone_hit)`.  The constructors mirror the distinct Python
values: the int literal `1`, a float `current_value`, and the two string
literals; `str` is injective on these, so key equality is constructor
equality. -/
inductive MilestoneHit where
  | intOne : MilestoneHit
  | val : PyF → MilestoneHit
  | tookLead : MilestoneHit
  | covering : MilestoneHit
  deriving DecidableEq

/-- A row of `bet_tracking`. `milestone_alerts` is the JSON dict keyed by
`str(milestone_hit)`, in insertion order. -/
structure TrackingRow where
  bet_id : Nat
  game_id : Nat
  current_value : PyF
  target_value : PyF
  progress_percentage : PyF
  last_update_inning : Nat
  milestone_alerts : List (MilestoneHit × AlertRec)
  deriving DecidableEq

/-- A row of `message_log`.  The rendered `message_title`/`message_content`
strings are modelled by the numeric quantities they interpolate
(`shown_current`, `shown_remaining`), which is what the claims are about. -/
structure LogMessage where
  community_id : Nat
  message_kind : String
  bet_id : Nat
  game_id : Nat
  priority_level : Nat
  shown_current : Option Int
  shown_remaining : Option Int
  milestone_tag : Option String
  deriving DecidableEq

/-- The database state visible to the tracker. -/
structure DBState where
  bets : List BetRow
  games : List GameRow
  communities : List (Nat × String)
  players : List (Nat × String)
  player_stats : List PlayerStatsRow
  pitcher_stats : List PitcherStatsRow
  tracking : List TrackingRow
  messages : List LogMessage
  deriving DecidableEq

/-- One entry of `boxscore.teams.*.players.*.stats.batting` of the live feed. -/
structure BattingLine where
  atBats : Int
  hits : Int
  doubles : Int
  triples : Int
  homeRuns : Int
  runs : Int
  rbi : Int
  baseOnBalls : Int
  strikeOuts : Int
  stolenBases : Int
  deriving DecidableEq

/-- One entry of `boxscore.teams.*.players.*.stats.pitching` of the live feed. -/
structure PitchingLine where
  inningsPitched : PyF
  strikeOuts : Int
  baseOnBalls : Int
  hits : Int
  earnedRuns : Int
  homeRuns : Int
  numberOfPitches : Int
  deriving DecidableEq

/-- The relevant part of one MLB API game feed response. -/
structure GameFeed where
  detailedState : String
  abstractFinal : Bool
  currentInning : Nat
  inningState : String
  homeScore : Int
  awayScore : Int
  batting : List (Nat × BattingLine)
  pitching : List (Nat × PitchingLine)
  deriving DecidableEq

/-- The dict returned by `update_game_stats` on success (its `'boxscore'`
key is always present there, so `not game_update or 'boxscore' not in
game_update` reduces to the feed having been empty). -/
structure GameUpdate where
  game_id : Nat
  status : String
  is_final : Bool
  inning : Nat
  inning_half : String
  batting : List (Nat × BattingLine)
  pitching : List (Nat × PitchingLine)
  deriving DecidableEq

/-- One row of the active-bet query: the bet columns plus the joined
community name and (LEFT JOIN) player name. -/
structure ActiveRow where
  bet : BetRow
  community_name : String
  player_name : Option String
  deriving DecidableEq

/-- The run summary dict built by `track_all_live_games`.  `duration_seconds`
is `none` on the code paths that return before the duration is recorded. -/
structure Summary where
  games_tracked : Nat := 0
  bets_checked : Nat := 0
  bets_updated : Nat := 0
  messages_queued : Nat := 0
  winners : List (Nat × String × String) := []
  errors : List String := []
  duration_seconds : Option PyF := none
  deriving DecidableEq

/-- The dict returned by `check_bet_progress`. -/
structure Progress where
  bet_id : Nat
  game_id : Nat
  current_value : PyF
  target_value : PyF
  progress_percentage : PyF
  is_hit : Bool
  operator : Option String
  milestone_hit : Option MilestoneHit
  milestone_kind : Option String
  last_value : PyF
  value_changed : Bool
  alerts_sent : Nat
  deriving DecidableEq

/-! ### Table lookups (`fetchone`) -/

def findGame (gs : List GameRow) (gid : Nat) : Option GameRow :=
  gs.find? (fun g => g.game_id = gid)

def findCommunity (cs : List (Nat × String)) (cid : Nat) : Option String :=
  (cs.find? (fun c => c.1 = cid)).map (fun c => c.2)

def findPlayerName (ps : List (Nat × String)) (pid : Nat) : Option String :=
  (ps.find? (fun p => p.1 = pid)).map (fun p => p.2)

def findPlayerStats (ps : List PlayerStatsRow) (gid : Nat) (pid : Option Nat) :
    Option PlayerStatsRow :=
  match pid with
  | none => none
  | some p => ps.find? (fun r => r.game_id = gid ∧ r.player_id = p)

def findPitcherStats (ps : List PitcherStatsRow) (gid : Nat) (pid : Option Nat) :
    Option PitcherStatsRow :=
  match pid with
  | none => none
  | some p => ps.find? (fun r => r.game_id = gid ∧ r.pitcher_id = p)

def findTracking (ts : List TrackingRow) (bid : Nat) : Option TrackingRow :=
  ts.find? (fun t => t.bet_id = bid)

/-! ### Python helpers -/

/-- `bet.get('player_id') or bet.get('pitcher_id')` (source line 218).
Python `or` falls through on `None`; MLB ids are positive so the `0`-falsy
case does not arise. -/
def betPid (b : BetRow) : Option Nat :=
  match b.player_id with
  | some p => some p
  | none => b.pitcher_id

/-- `float(bet.get('target_value') or 1)` (source line 303): `None` and `0`
are falsy and become `1`. -/
def pyOr1 (tv : Option PyF) : PyF :=
  match tv with
  | none => 1
  | some t => if feq t 0 then 1 else t

def floatNoneMsg : String := "float() argument was None"

/-- `float(x)` on a nullable column: raises on SQL NULL. -/
def pyFloat (tv : Option PyF) : Except String PyF :=
  match tv with
  | none => Except.error floatNoneMsg
  | some t => Except.ok t

/-! ### check_bet_progress: stat value resolution (source lines 231-300) -/

/-- The `stat_mapping` dict (source lines 232-248). -/
def statMapping (bt : String) : Option (String × String) :=
  if bt = "hrs" then some ("player_game_stats", "home_runs")
  else if bt = "home runs" then some ("player_game_stats", "home_runs")
  else if bt = "hits" then some ("player_game_stats", "hits")
  else if bt = "h" then some ("player_game_stats", "hits")
  else if bt = "total bases" then some ("player_game_stats", "total_bases_calculated")
  else if bt = "bases" then some ("player_game_stats", "total_bases_calculated")
  else if bt = "ks" then some ("pitcher_game_stats", "strikeouts")
  else if bt = "strikeouts" then some ("pitcher_game_stats", "strikeouts")
  else if bt = "rbis" then some ("player_game_stats", "rbis")
  else if bt = "rbi" then some ("player_game_stats", "rbis")
  else if bt = "stolen bases" then some ("player_game_stats", "stolen_bases")
  else if bt = "sb" then some ("player_game_stats", "stolen_bases")
  else if bt = "runs" then some ("player_game_stats", "runs")
  else if bt = "walks" then some ("player_game_stats", "walks")
  else if bt = "bb" then some ("player_game_stats", "walks")
  else none

/-- `SELECT {column} FROM player_game_stats ...` for the non-derived columns. -/
def playerStatCol (col : String) (ps : PlayerStatsRow) : PyF :=
  if col = "home_runs" then fofInt ps.home_runs
  else if col = "hits" then fofInt ps.hits
  else if col = "rbis" then fofInt ps.rbis
  else if col = "stolen_bases" then fofInt ps.stolen_bases
  else if col = "runs" then fofInt ps.runs
  else if col = "walks" then fofInt ps.walks
  else 0

/-- Moneyline value (source lines 287-297): only a terminal game yields 1;
a live game yields 0 regardless of the score.  A bet whose `team_id` does
not equal the home team id takes the `else` (away) branch, as in the source. -/
def mlValue (g : GameRow) (teamId : Option Nat) : PyF :=
  if g.status = "Final" ∨ g.status = "Game Over" ∨ g.status = "Completed" then
    if teamId = some g.home_team_id then
      (if g.home_score > g.away_score then 1 else 0)
    else
      (if g.away_score > g.home_score then 1 else 0)
  else 0

/-- `current_value` resolution of `check_bet_progress` (source lines
250-300).  Note that the team-bet branch (lines 276-300) handles only
`moneyline`/`ml` and `total`; there is no assignment for `spread`, so a
spread bet keeps the initial `current_value = 0`. -/
def statValue (st : DBState) (bet : BetRow) : PyF :=
  let bt := pyLower bet.bet_type
  let pid := betPid bet
  match statMapping bt with
  | some tc =>
    if tc.1 = "pitcher_game_stats" then
      match findPitcherStats st.pitcher_stats bet.game_id pid with
      | some ps => fofInt ps.strikeouts
      | none => 0
    else if tc.2 = "total_bases_calculated" then
      match findPlayerStats st.player_stats bet.game_id pid with
      | some ps =>
        fofInt (ps.singles * 1 + ps.doubles * 2 + ps.triples * 3 + ps.home_runs * 4)
      | none => 0
    else
      match findPlayerStats st.player_stats bet.game_id pid with
      | some ps => playerStatCol tc.2 ps
      | none => 0
  | none =>
    if bt = "moneyline" ∨ bt = "ml" ∨ bt = "spread" ∨ bt = "total" then
      match findGame st.games bet.game_id with
      | some g =>
        if bt = "moneyline" ∨ bt = "ml" then mlValue g bet.team_id
        else if bt = "total" then fofInt (g.home_score + g.away_score)
        else 0
      | none => 0
    else 0

/-! ### check_bet_progress: milestone detection (source lines 323-403) -/

/-- The bet-type list of the player-prop milestone branch (source line 328). -/
def counting1 : List String :=
  ["hrs", "home runs", "hits", "h", "rbis", "rbi", "sb", "stolen bases",
   "total bases", "bases"]

/-- Player-prop milestone thresholds (source lines 327-353).  Returns
`(milestone_hit, milestone_type, target)` where `target` is the rebinding
`target = float(bet.get('target_value', 2))` that the rest of
`check_bet_progress` then uses. -/
def countingMilestone (t prev current : PyF) (al : Nat) :
    Option MilestoneHit × Option String × PyF :=
  if fle t ⟨5, 2⟩ then
    if feq prev 0 && fle 1 current && al == 0 then
      (some MilestoneHit.intOne, some "first_progress", t)
    else (none, none, t)
  else if fle t 4 then
    if fle (fmul t ⟨1, 2⟩) current && flt prev (fmul t ⟨1, 2⟩) && al == 0 then
      (some (MilestoneHit.val current), some "halfway", t)
    else if fle (fmul t ⟨4, 5⟩) current && flt prev (fmul t ⟨4, 5⟩) && al < 2 then
      (some (MilestoneHit.val current), some "near_complete", t)
    else (none, none, t)
  else
    if fle (fmul t ⟨1, 2⟩) current && flt prev (fmul t ⟨1, 2⟩) && al == 0 then
      (some (MilestoneHit.val current), some "halfway", t)
    else if fle (fmul t ⟨4, 5⟩) current && flt prev (fmul t ⟨4, 5⟩) && al < 2 then
      (some (MilestoneHit.val current), some "near_complete", t)
    else (none, none, t)

/-- Strikeout milestone thresholds (source lines 355-375): same behaviour as
the player-prop branch at these thresholds. -/
def ksMilestone (t prev current : PyF) (al : Nat) :
    Option MilestoneHit × Option String × PyF :=
  if fle t ⟨5, 2⟩ then
    if feq prev 0 && fle 1 current && al == 0 then
      (some MilestoneHit.intOne, some "first_progress", t)
    else (none, none, t)
  else
    if fle (fmul t ⟨1, 2⟩) current && flt prev (fmul t ⟨1, 2⟩) && al == 0 then
      (some (MilestoneHit.val current), some "halfway", t)
    else if fle (fmul t ⟨4, 5⟩) current && flt prev (fmul t ⟨4, 5⟩) && al < 2 then
      (some (MilestoneHit.val current), some "near_complete", t)
    else (none, none, t)

/-- Totals milestone thresholds (source lines 389-403). -/
def totalMilestone (t prev current : PyF) (al : Nat) :
    Option MilestoneHit × Option String × PyF :=
  if fle t ⟨5, 2⟩ then
    if feq prev 0 && fle 1 current && al == 0 then
      (some MilestoneHit.intOne, some "first_progress", t)
    else (none, none, t)
  else
    if fle (fmul t ⟨3, 4⟩) current && flt prev (fmul t ⟨3, 4⟩) && al == 0 then
      (some (MilestoneHit.val current), some "nearing_total", t)
    else (none, none, t)

/-- The milestone dispatch of `check_bet_progress` (source lines 323-403).
The player-prop, strikeout and totals branches re-read
`float(bet.get('target_value', ...))`, which raises when the stored value is
SQL NULL (the dict key is always present, so the `.get` default is dead);
`runs`/`walks`/`bb` bets match no branch and never produce a milestone. -/
def milestoneOf (bt : String) (tv : Option PyF) (target0 prev current : PyF)
    (al : Nat) : Except String (Option MilestoneHit × Option String × PyF) :=
  if bt ∈ counting1 then
    match pyFloat tv with
    | Except.error e => Except.error e
    | Except.ok t => Except.ok (countingMilestone t prev current al)
  else if bt = "ks" ∨ bt = "strikeouts" then
    match pyFloat tv with
    | Except.error e => Except.error e
    | Except.ok t => Except.ok (ksMilestone t prev current al)
  else if bt = "moneyline" ∨ bt = "ml" then
    Except.ok (if feq current 1 && feq prev 0 && al == 0 then
      (some MilestoneHit.tookLead, some "lead_change", target0)
    else (none, none, target0))
  else if bt = "spread" then
    Except.ok (if fle target0 current && flt prev target0 && al == 0 then
      (some MilestoneHit.covering, some "spread_covered", target0)
    else (none, none, target0))
  else if bt = "total" then
    match pyFloat tv with
    | Except.error e => Except.error e
    | Except.ok t => Except.ok (totalMilestone t prev current al)
  else Except.ok (none, none, target0)

/-! ### check_bet_progress: hit determination (source lines 405-416) -/

def isHitOf (op : Option String) (bt : String) (current target : PyF) : Bool :=
  match op with
  | some o =>
    let ol := pyLower o
    if ol = "over" then flt target current
    else if ol = "under" then flt current target
    else if ol = "exactly" then feq current target
    else false
  | none =>
    if bt = "moneyline" ∨ bt = "ml" then feq current 1 else false

/-! ### check_bet_progress (source lines 213-431) -/

/-- Previous tracked value (source line 227). -/
def trackPrev (ts : List TrackingRow) (bid : Nat) : PyF :=
  match findTracking ts bid with
  | some t => t.current_value
  | none => 0

/-- Previously fired milestone alerts (source line 228). -/
def trackAlerts (ts : List TrackingRow) (bid : Nat) :
    List (MilestoneHit × AlertRec) :=
  match findTracking ts bid with
  | some t => t.milestone_alerts
  | none => []

def check_bet_progress (st : DBState) (bet : BetRow) : Except String Progress :=
  let bt := pyLower bet.bet_type
  let prev := trackPrev st.tracking bet.bet_id
  let alerts_sent := (trackAlerts st.tracking bet.bet_id).length
  let current := statValue st bet
  let target0 := pyOr1 bet.target_value
  (milestoneOf bt bet.target_value target0 prev current alerts_sent).map
    (fun mres => show Progress from
      { bet_id := bet.bet_id
        game_id := bet.game_id
        current_value := current
        target_value := mres.2.2
        progress_percentage :=
          fmin (if flt 0 mres.2.2 then fmul (fdivP current mres.2.2) 100 else 0) 100
        is_hit := isHitOf bet.operator bt current mres.2.2
        operator := bet.operator
        milestone_hit := mres.1
        milestone_kind := mres.2.1
        last_value := prev
        value_changed := !(feq current prev)
        alerts_sent := alerts_sent })

/-! ### update_game_stats / update_player_stats (source lines 58-211) -/

/-- The `UPDATE games SET ...` of `update_game_stats` (source lines 76-92). -/
def setGameFromFeed (gs : List GameRow) (gid : Nat) (f : GameFeed) : List GameRow :=
  gs.map (fun g =>
    if g.game_id = gid then
      { g with status := f.detailedState, inning := f.currentInning,
               inning_half := f.inningState, home_score := f.homeScore,
               away_score := f.awayScore }
    else g)

/-- `update_game_stats` (source lines 58-108): an empty feed (or an API
exception, which the function catches itself) yields `{}`, modelled as
`none`; otherwise the game row is updated and the boxscore returned. -/
def update_game_stats (st : DBState) (gid : Nat) (feed : Option GameFeed) :
    DBState × Option GameUpdate :=
  match feed with
  | none => (st, none)
  | some f =>
    ({ st with games := setGameFromFeed st.games gid f },
     some { game_id := gid, status := f.detailedState,
            is_final := f.abstractFinal, inning := f.currentInning,
            inning_half := f.inningState,
            batting := f.batting, pitching := f.pitching })

/-- The row written by the `player_game_stats` upsert (source lines
136-168); `singles` is derived as `hits - doubles - triples - home_runs`
(line 159).  The local `total_bases = hits + doubles + 2*triples +
3*home_runs` computed at line 134 is dead code: it is not part of the
INSERT column list. -/
def battingRow (gid pid : Nat) (b : BattingLine) : PlayerStatsRow :=
  { game_id := gid, player_id := pid,
    at_bats := b.atBats, hits := b.hits,
    singles := b.hits - b.doubles - b.triples - b.homeRuns,
    doubles := b.doubles, triples := b.triples, home_runs := b.homeRuns,
    runs := b.runs, rbis := b.rbi, walks := b.baseOnBalls,
    strikeouts := b.strikeOuts, stolen_bases := b.stolenBases }

/-- `ON CONFLICT (game_id, player_id) DO UPDATE`: replace the keyed row,
else insert. -/
def upsertPlayerStats (rows : List PlayerStatsRow) (gid pid : Nat)
    (b : BattingLine) : List PlayerStatsRow :=
  match rows with
  | [] => [battingRow gid pid b]
  | r :: rest =>
    if r.game_id = gid ∧ r.player_id = pid then battingRow gid pid b :: rest
    else r :: upsertPlayerStats rest gid pid b

def pitchingRow (gid pid : Nat) (p : PitchingLine) : PitcherStatsRow :=
  { game_id := gid, pitcher_id := pid,
    innings_pitched := p.inningsPitched, strikeouts := p.strikeOuts,
    walks_allowed := p.baseOnBalls, hits_allowed := p.hits,
    earned_runs := p.earnedRuns, home_runs_allowed := p.homeRuns,
    pitch_count := p.numberOfPitches }

def upsertPitcherStats (rows : List PitcherStatsRow) (gid pid : Nat)
    (p : PitchingLine) : List PitcherStatsRow :=
  match rows with
  | [] => [pitchingRow gid pid p]
  | r :: rest =>
    if r.game_id = gid ∧ r.pitcher_id = pid then pitchingRow gid pid p :: rest
    else r :: upsertPitcherStats rest gid pid p

/-- `update_player_stats` (source lines 110-211).  The `players`/`pitchers`
existence inserts (lines 175-185) only satisfy foreign keys and are elided:
no claim reads those tables. -/
def update_player_stats (st : DBState) (gid : Nat)
    (batting : List (Nat × BattingLine)) (pitching : List (Nat × PitchingLine)) :
    DBState :=
  let st1 := batting.foldl
    (fun s e => { s with player_stats := upsertPlayerStats s.player_stats gid e.1 e.2 }) st
  pitching.foldl
    (fun s e => { s with pitcher_stats := upsertPitcherStats s.pitcher_stats gid e.1 e.2 }) st1

/-! ### update_bet_tracking (source lines 433-513) -/

/-- Python dict assignment `milestone_alerts[key] = {...}`: replace the
value under an existing key in place, else append (insertion order). -/
def upsertAlert (m : List (MilestoneHit × AlertRec)) (k : MilestoneHit)
    (v : AlertRec) : List (MilestoneHit × AlertRec) :=
  match m with
  | [] => [(k, v)]
  | e :: rest => if e.1 = k then (k, v) :: rest else e :: upsertAlert rest k v

/-- Upsert of the `bet_tracking` row (source lines 456-495): UPDATE the
existing row's value/progress/inning/alerts columns, or INSERT a new row. -/
def upsertTracking (ts : List TrackingRow) (bet : BetRow) (p : Progress)
    (alerts : List (MilestoneHit × AlertRec)) (inning : Nat) : List TrackingRow :=
  match ts with
  | [] => [{ bet_id := bet.bet_id, game_id := bet.game_id,
             current_value := p.current_value, target_value := p.target_value,
             progress_percentage := p.progress_percentage,
             last_update_inning := inning, milestone_alerts := alerts }]
  | t :: rest =>
    if t.bet_id = bet.bet_id then
      { t with current_value := p.current_value,
               progress_percentage := p.progress_percentage,
               last_update_inning := inning, milestone_alerts := alerts } :: rest
    else t :: upsertTracking rest bet p alerts inning

/-- `update_bet_tracking` (source lines 433-513).  The status written to
`bets` is decided from the snapshot status `bet['status']`: Won on a hit
(regardless of whether the game is over), Lost when the passed game update
is final, else Pending→Live.  `progress['milestone_hit']` is tested for
Python truthiness; every value the milestone logic can produce is truthy,
so this is `isSome`. -/
def update_bet_tracking (st : DBState) (bet : BetRow) (p : Progress)
    (gu : GameUpdate) : DBState :=
  let existing := trackAlerts st.tracking bet.bet_id
  let alerts :=
    match p.milestone_hit with
    | some k => upsertAlert existing k { inning := gu.inning, value := p.current_value }
    | none => existing
  let tracking := upsertTracking st.tracking bet p alerts gu.inning
  let newStatus : Option String :=
    if p.is_hit then some "Won"
    else if gu.is_final then some "Lost"
    else if bet.status = "Pending" then some "Live"
    else none
  let bets :=
    match newStatus with
    | some s =>
      st.bets.map (fun b =>
        if b.bet_id = bet.bet_id then
          { b with status := s, result_value := some p.current_value }
        else b)
    | none => st.bets
  { st with tracking := tracking, bets := bets }

/-! ### queue_message (source lines 515-644) -/

/-- `needed_total = math.ceil(t) if t != int(t) else int(t) + 1`
(source lines 536 and 595). -/
def neededTotal (t : PyF) : Int :=
  if !(feq t (fofInt (ftrunc t))) then fceil t else ftrunc t + 1

/-- Per-bet alert budget (source line 519). -/
def maxUpdates (bet : BetRow) (communityName : String) : Nat :=
  if fle 3 bet.units || communityName == "StatEdge Premium" then 2 else 1

/-- The numeric content of the message built by `queue_message` for each
milestone branch (source lines 526-624), as
`(shown_current, shown_remaining)`; `none` when the branch `return`s
without queuing.  `first_progress` and `nearing_total` use
`max(0, needed_total - int(current))`; `halfway` and `near_complete` use
the direct `int(target) - int(current)`; an unrecognized message type
(such as `'progress'`, line 623) queues nothing. -/
def messageContent (p : Progress) (kind : String) :
    Option (Option Int × Option Int) :=
  if kind = "milestone" ∧ p.milestone_kind.isSome then
    match p.milestone_kind with
    | some mt =>
      if mt = "first_progress" then
        let c := ftrunc p.current_value
        some (some c, some (max 0 (neededTotal p.target_value - c)))
      else if mt = "halfway" then
        let c := ftrunc p.current_value
        some (some c, some (ftrunc p.target_value - c))
      else if mt = "last_chance" then some (none, some 1)
      else if mt = "lead_change" then some (none, none)
      else if mt = "spread_covered" then some (none, none)
      else if mt = "nearing_total" then
        let c := ftrunc p.current_value
        some (some c, some (max 0 (neededTotal p.target_value - c)))
      else if mt = "near_complete" then
        let c := ftrunc p.current_value
        some (some c, some (ftrunc p.target_value - c))
      else none
    | none => none
  else if kind = "won" then some (none, none)
  else none

/-- `queue_message` (source lines 515-644): skip when the alert budget is
exhausted (wins exempt), else insert a `message_log` row for the branches
that build one. -/
def queue_message (st : DBState) (bet : BetRow) (communityName : String)
    (p : Progress) (kind : String) : DBState :=
  if p.alerts_sent ≥ maxUpdates bet communityName ∧ kind ≠ "won" then st
  else
    match messageContent p kind with
    | none => st
    | some content =>
      { st with messages := st.messages ++
          [{ community_id := bet.community_id, message_kind := kind,
             bet_id := bet.bet_id, game_id := bet.game_id,
             priority_level := if kind = "won" then 2 else 1,
             shown_current := content.1, shown_remaining := content.2,
             milestone_tag := p.milestone_kind }] }

/-! ### The orchestrator (source lines 20-56 and 646-800) -/

/-- The active-bet query (source lines 20-56): Pending/Live bets joined to
today's games in a non-terminal status, with the community name (INNER
JOIN) and player name (LEFT JOIN).  The `ORDER BY community_id, bet_id` and
`DISTINCT` are elided: rows are unique and no claim depends on iteration
order. -/
def get_active_game_bets (st : DBState) : List ActiveRow :=
  st.bets.filterMap (fun b =>
    if b.status = "Pending" ∨ b.status = "Live" then
      match findGame st.games b.game_id with
      | some g =>
        if g.game_date_today = true ∧
            (g.status = "In Progress" ∨ g.status = "Live" ∨ g.status = "Warmup" ∨
             g.status = "Pre-Game" ∨ g.status = "Scheduled") then
          match findCommunity st.communities b.community_id with
          | some cn =>
            some { bet := b, community_name := cn,
                   player_name :=
                     match b.player_id with
                     | some pid => findPlayerName st.players pid
                     | none => none }
          | none => none
        else none
      | none => none
    else none)

/-- Grouping of active bets by game (source lines 671-676), preserving
first-occurrence order as a Python dict does. -/
def groupByGame (rows : List ActiveRow) : List (Nat × List ActiveRow) :=
  rows.foldl (fun acc r =>
    if acc.any (fun g => g.1 = r.bet.game_id) then
      acc.map (fun g => if g.1 = r.bet.game_id then (g.1, g.2 ++ [r]) else g)
    else acc ++ [(r.bet.game_id, [r])]) []

def betErrMsg (bid : Nat) (e : String) : String :=
  "Error tracking bet " ++ toString bid ++ ": " ++ e

def gameErrMsg (gid : Nat) (e : String) : String :=
  "Error updating game " ++ toString gid ++ ": " ++ e

def addError (s : Summary) (e : String) : Summary :=
  { s with errors := s.errors ++ [e] }

/-- State changes of one successful per-bet iteration (source lines
699-757): milestone message, win message, tracking update, and the
`'progress'` message attempt (which `queue_message` drops). -/
def processBetCore (gu : GameUpdate) (r : ActiveRow) (st : DBState)
    (p : Progress) : DBState :=
  let st1 :=
    if p.milestone_hit.isSome ∧ gu.is_final = false then
      queue_message st r.bet r.community_name p "milestone"
    else st
  let st2 :=
    if p.is_hit = true ∧ r.bet.status ≠ "Won" then
      queue_message st1 r.bet r.community_name p "won"
    else st1
  let st3 := update_bet_tracking st2 r.bet p gu
  if p.is_hit = false ∧ p.value_changed = true ∧
      flt 0 p.progress_percentage = true ∧
      fle 1 (fabs (fsub p.current_value p.last_value)) = true then
    queue_message st3 r.bet r.community_name p "progress"
  else st3

/-- Summary changes of one successful per-bet iteration (source lines
703-757): `messages_queued` counts queue attempts, `bets_updated` the
tracked bet, `winners` the hit. -/
def processBetSum (gu : GameUpdate) (r : ActiveRow) (p : Progress)
    (sum : Summary) : Summary :=
  let q1 := if p.milestone_hit.isSome ∧ gu.is_final = false then 1 else 0
  let q2 := if p.is_hit = true ∧ r.bet.status ≠ "Won" then 1 else 0
  let q3 :=
    if p.is_hit = false ∧ p.value_changed = true ∧
        flt 0 p.progress_percentage = true ∧
        fle 1 (fabs (fsub p.current_value p.last_value)) = true then 1
    else 0
  let s1 := { sum with
    messages_queued := sum.messages_queued + q1 + q2 + q3,
    bets_updated := sum.bets_updated + 1 }
  if p.is_hit then
    { s1 with winners := s1.winners ++
        [(r.bet.bet_id, r.player_name.getD "Team bet", r.community_name)] }
  else s1

/-- One iteration of the per-bet loop with its `try/except` (source lines
697-762): an injected persistence fault or a raise inside
`check_bet_progress` appends one error string and leaves the state alone. -/
def processBet (bf : Nat → Option String) (gu : GameUpdate)
    (acc : DBState × Summary) (r : ActiveRow) : DBState × Summary :=
  match bf r.bet.bet_id with
  | some e => (acc.1, addError acc.2 (betErrMsg r.bet.bet_id e))
  | none =>
    match check_bet_progress acc.1 r.bet with
    | Except.error e => (acc.1, addError acc.2 (betErrMsg r.bet.bet_id e))
    | Except.ok p => (processBetCore gu r acc.1 p, processBetSum gu r p acc.2)

/-- One iteration of the per-game loop with its `try/except` (source lines
682-767): an empty feed skips the game silently (lines 689-691); a fault in
the stats update (`gameFault`) appends one error and skips the game's bets. -/
def processGame (feeds : Nat → Option GameFeed) (gf bf : Nat → Option String)
    (acc : DBState × Summary) (grp : Nat × List ActiveRow) : DBState × Summary :=
  let res := update_game_stats acc.1 grp.1 (feeds grp.1)
  match res.2 with
  | none => (res.1, acc.2)
  | some gu =>
    match gf grp.1 with
    | some e => (res.1, addError acc.2 (gameErrMsg grp.1 e))
    | none =>
      let st2 := update_player_stats res.1 grp.1 gu.batting gu.pitching
      grp.2.foldl (processBet bf gu) (st2, acc.2)

/-- The join condition `g.status IN ('Final', 'Game Over', 'Completed')` on
the game a bet references. -/
def gameIsTerminal (gs : List GameRow) (gid : Nat) : Bool :=
  match findGame gs gid with
  | some g => decide (g.status = "Final" ∨ g.status = "Game Over" ∨
                      g.status = "Completed")
  | none => false

/-- The closing `UPDATE bets ... SET status = 'Lost'` sweep (source lines
769-781): any still-Pending/Live bet joined to a terminal game, excluding
ids that currently hold status Won. -/
def markLostSweep (st : DBState) : DBState :=
  let wonIds := st.bets.filterMap
    (fun b => if b.status = "Won" then some b.bet_id else none)
  { st with bets := st.bets.map (fun b =>
      if (b.status = "Pending" ∨ b.status = "Live") ∧
          gameIsTerminal st.games b.game_id = true ∧
          ¬ b.bet_id ∈ wonIds then
        { b with status := "Lost" }
      else b) }

/-- `track_all_live_games` (source lines 646-800).  `elapsed` stands for the
wall-clock duration measured at the end of the run; the `if not active_bets`
early return (lines 666-668) hands the summary back before either the Lost
sweep or the duration fields are reached. -/
def track_all_live_games (st : DBState) (feeds : Nat → Option GameFeed)
    (gf bf : Nat → Option String) (elapsed : PyF) : DBState × Summary :=
  let active := get_active_game_bets st
  let sum0 : Summary := { bets_checked := active.length }
  if active.isEmpty then (st, sum0)
  else
    let groups := groupByGame active
    let sum1 := { sum0 with games_tracked := groups.length }
    let res := groups.foldl (processGame feeds gf bf) (st, sum1)
    (markLostSweep res.1, { res.2 with duration_seconds := some elapsed })

/-! ### Projections and scenario helpers used by the claim statements -/

def progCurrent : Except String Progress → Option PyF
  | Except.ok p => some p.current_value
  | Except.error _ => none

def progTarget : Except String Progress → Option PyF
  | Except.ok p => some p.target_value
  | Except.error _ => none

def progIsHit : Except String Progress → Option Bool
  | Except.ok p => some p.is_hit
  | Except.error _ => none

def progMilestone : Except String Progress → Option (Option String)
  | Except.ok p => some p.milestone_kind
  | Except.error _ => none

/-- One successful evaluate-then-record step for a single bet: what the
per-bet loop does to the ledger (messages aside). -/
def evalAndTrack (st : DBState) (bet : BetRow) (gu : GameUpdate) : DBState :=
  match check_bet_progress st bet with
  | Except.ok p => update_bet_tracking st bet p gu
  | Except.error _ => st

/-- At-least-once redelivery of one evaluation: the same `Progress` record
(hence the same milestone key) is written to the ledger twice. -/
def trackTwice (st : DBState) (bet : BetRow) (gu : GameUpdate) : DBState :=
  match check_bet_progress st bet with
  | Except.ok p => update_bet_tracking (update_bet_tracking st bet p gu) bet p gu
  | Except.error _ => st

/-- Modelled from the spec: the remaining-to-hit formula the claim asserts
for every milestone message, `(ceil(target) if target is fractional else
target + 1) - current`, to be compared with what `queue_message` computes. -/
def claimRemaining (t : PyF) (c : Int) : Int :=
  (if !(feq t (fofInt (ftrunc t))) then fceil t else ftrunc t + 1) - c

/-- The state-independent condition under which `check_bet_progress` raises:
only the `float(bet.get('target_value', ...))` re-reads raise, and only on a
NULL target (see `milestoneOf`). -/
def checkFails (b : BetRow) : Option String :=
  let bt := pyLower b.bet_type
  if (bt ∈ counting1 ∨ bt = "ks" ∨ bt = "strikeouts" ∨ bt = "total") ∧
      b.target_value = none then
    some floatNoneMsg
  else none

/-- The error strings one bet contributes to the run summary. -/
def betUnitErrors (bf : Nat → Option String) (r : ActiveRow) : List String :=
  match bf r.bet.bet_id with
  | some e => [betErrMsg r.bet.bet_id e]
  | none =>
    match checkFails r.bet with
    | some e => [betErrMsg r.bet.bet_id e]
    | none => []

/-- Whether one bet's iteration completes without an exception. -/
def betOk (bf : Nat → Option String) (r : ActiveRow) : Bool :=
  (bf r.bet.bet_id).isNone && (checkFails r.bet).isNone

/-- The error strings one game group contributes to the run summary: none
when the feed is empty (silent skip), its own message on a stats-update
fault, else the errors of its bets. -/
def gameUnitErrors (feeds : Nat → Option GameFeed) (gf bf : Nat → Option String)
    (grp : Nat × List ActiveRow) : List String :=
  match feeds grp.1 with
  | none => []
  | some _ =>
    match gf grp.1 with
    | some e => [gameErrMsg grp.1 e]
    | none => (grp.2.map (betUnitErrors bf)).flatten

/-- How many bets one game group successfully tracks. -/
def gameUnitUpdated (feeds : Nat → Option GameFeed) (gf bf : Nat → Option String)
    (grp : Nat × List ActiveRow) : Nat :=
  match feeds grp.1 with
  | none => 0
  | some _ =>
    match gf grp.1 with
    | some _ => 0
    | none => grp.2.countP (fun r => betOk bf r)

deriving instance DecidableEq for Except

instance : Inhabited Progress :=
  ⟨{ bet_id := 0, game_id := 0, current_value := 0, target_value := 0,
     progress_percentage := 0, is_hit := false, operator := none,
     milestone_hit := none, milestone_kind := none, last_value := 0,
     value_changed := false, alerts_sent := 0 }⟩

/-- The `Progress` record a successful evaluation returns (meaningless
default on the raising paths); lets closed statements name the record. -/
def progOf (st : DBState) (bet : BetRow) : Progress :=
  match check_bet_progress st bet with
  | Except.ok p => p
  | Except.error _ => default

/-! ### How the fields of a successful evaluation are built -/

theorem check_bet_progress_ok (st : DBState) (bet : BetRow) (p : Progress)
    (h : check_bet_progress st bet = Except.ok p) :
    p.current_value = statValue st bet ∧
    p.is_hit = isHitOf bet.operator (pyLower bet.bet_type)
      (statValue st bet) p.target_value ∧
    p.last_value = trackPrev st.tracking bet.bet_id ∧
    p.alerts_sent = (trackAlerts st.tracking bet.bet_id).length ∧
    milestoneOf (pyLower bet.bet_type) bet.target_value (pyOr1 bet.target_value)
        (trackPrev st.tracking bet.bet_id) (statValue st bet)
        ((trackAlerts st.tracking bet.bet_id).length) =
      Except.ok (p.milestone_hit, p.milestone_kind, p.target_value) := by
  simp only [check_bet_progress] at h
  cases hm : milestoneOf (pyLower bet.bet_type) bet.target_value
      (pyOr1 bet.target_value) (trackPrev st.tracking bet.bet_id)
      (statValue st bet) ((trackAlerts st.tracking bet.bet_id).length) with
  | error e => rw [hm] at h; exact absurd h (by simp [Except.map])
  | ok v =>
    rw [hm] at h
    simp only [Except.map, Except.ok.injEq] at h
    subst h
    exact ⟨rfl, rfl, rfl, rfl, rfl⟩

theorem check_eq_of_milestone (st : DBState) (bet : BetRow)
    (v : Option MilestoneHit × Option String × PyF)
    (hm : milestoneOf (pyLower bet.bet_type) bet.target_value
      (pyOr1 bet.target_value) (trackPrev st.tracking bet.bet_id)
      (statValue st bet) ((trackAlerts st.tracking bet.bet_id).length) =
        Except.ok v) :
    check_bet_progress st bet = Except.ok
      { bet_id := bet.bet_id, game_id := bet.game_id,
        current_value := statValue st bet, target_value := v.2.2,
        progress_percentage :=
          fmin (if flt 0 v.2.2 then fmul (fdivP (statValue st bet) v.2.2) 100 else 0) 100,
        is_hit := isHitOf bet.operator (pyLower bet.bet_type) (statValue st bet) v.2.2,
        operator := bet.operator, milestone_hit := v.1, milestone_kind := v.2.1,
        last_value := trackPrev st.tracking bet.bet_id,
        value_changed := !(feq (statValue st bet) (trackPrev st.tracking bet.bet_id)),
        alerts_sent := (trackAlerts st.tracking bet.bet_id).length } := by
  simp only [check_bet_progress]
  rw [hm]
  rfl

/-- C5: `check_bet_progress` determines `is_hit` from the operator: `over`
means current strictly above target, `under` strictly below, `exactly`
numeric equality, and a NULL operator on a moneyline bet means current == 1. -/
theorem hit_determination (st : DBState) (bet : BetRow) (p : Progress)
    (h : check_bet_progress st bet = Except.ok p) :
    (∀ o, bet.operator = some o → pyLower o = "over" →
      (p.is_hit = true ↔ flt p.target_value p.current_value = true)) ∧
    (∀ o, bet.operator = some o → pyLower o = "under" →
      (p.is_hit = true ↔ flt p.current_value p.target_value = true)) ∧
    (∀ o, bet.operator = some o → pyLower o = "exactly" →
      (p.is_hit = true ↔ feq p.current_value p.target_value = true)) ∧
    (bet.operator = none →
      (pyLower bet.bet_type = "moneyline" ∨ pyLower bet.bet_type = "ml") →
      (p.is_hit = true ↔ feq p.current_value 1 = true)) := by
  obtain ⟨hc, hh, -, -, -⟩ := check_bet_progress_ok st bet p h
  rw [← hc] at hh
  refine ⟨?_, ?_, ?_, ?_⟩
  · intro o ho hlow
    rw [hh, ho]
    simp [isHitOf, hlow]
  · intro o ho hlow
    rw [hh, ho]
    simp [isHitOf, hlow]
  · intro o ho hlow
    rw [hh, ho]
    simp [isHitOf, hlow]
  · intro ho hml
    rw [hh, ho]
    rcases hml with h1 | h1 <;> simp [isHitOf, h1]

def c5bet : BetRow :=
  { bet_id := 51, game_id := 50, player_id := some 501, pitcher_id := none,
    team_id := none, bet_type := "Hits", target_value := some ⟨3, 2⟩,
    operator := some "Over", units := 1, community_id := 1, status := "Live" }

def c5st : DBState :=
  { bets := [c5bet], games := [], communities := [(1, "Basic")], players := [],
    player_stats := [{ game_id := 50, player_id := 501, at_bats := 3, hits := 2,
                       singles := 2, doubles := 0, triples := 0, home_runs := 0,
                       runs := 0, rbis := 0, walks := 0, strikeouts := 0,
                       stolen_bases := 0 }],
    pitcher_stats := [], tracking := [], messages := [] }

theorem hit_determination_witness :
    check_bet_progress c5st c5bet = Except.ok (progOf c5st c5bet) ∧
    ((progOf c5st c5bet).is_hit = true ↔
      flt (progOf c5st c5bet).target_value (progOf c5st c5bet).current_value = true) :=
  ⟨by decide,
   (hit_determination c5st c5bet (progOf c5st c5bet) (by decide)).1
     "Over" (by decide) (by decide)⟩

/-! ### C6: total bases -/

theorem find_upsertPlayerStats (rows : List PlayerStatsRow) (gid pid : Nat)
    (b : BattingLine) :
    findPlayerStats (upsertPlayerStats rows gid pid b) gid (some pid) =
      some (battingRow gid pid b) := by
  induction rows with
  | nil => simp [upsertPlayerStats, findPlayerStats, List.find?, battingRow]
  | cons r rest ih =>
    by_cases hk : r.game_id = gid ∧ r.player_id = pid
    · simp [upsertPlayerStats, hk, findPlayerStats, List.find?, battingRow]
    · simp only [upsertPlayerStats, if_neg hk]
      simp only [findPlayerStats] at ih ⊢
      rw [List.find?_cons_of_neg, ih]
      simpa using hk

/-- C6: a total-bases bet's current value is
`1*singles + 2*doubles + 3*triples + 4*home_runs` over the stored row, and
the stored `singles` figure is derived by `update_player_stats` as
`hits - doubles - triples - home_runs` (the `hits + doubles + 2*triples +
3*home_runs` expression computed at source line 134 is dead: it is never
inserted). -/
theorem total_bases_derivation :
    (∀ (st : DBState) (bet : BetRow) (ps : PlayerStatsRow) (t : PyF),
      (pyLower bet.bet_type = "total bases" ∨ pyLower bet.bet_type = "bases") →
      bet.target_value = some t →
      findPlayerStats st.player_stats bet.game_id (betPid bet) = some ps →
      progCurrent (check_bet_progress st bet) =
        some (fofInt (ps.singles * 1 + ps.doubles * 2 + ps.triples * 3 +
                      ps.home_runs * 4))) ∧
    (∀ (st : DBState) (gid pid : Nat) (b : BattingLine) (row : PlayerStatsRow),
      findPlayerStats (update_player_stats st gid [(pid, b)] []).player_stats
          gid (some pid) = some row →
      row.singles = b.hits - b.doubles - b.triples - b.homeRuns) := by
  constructor
  · intro st bet ps t hbt htv hfind
    have hsv : statValue st bet =
        fofInt (ps.singles * 1 + ps.doubles * 2 + ps.triples * 3 + ps.home_runs * 4) := by
      rcases hbt with h | h <;>
        simp [statValue, h, statMapping, hfind]
    have hm : milestoneOf (pyLower bet.bet_type) bet.target_value
        (pyOr1 bet.target_value) (trackPrev st.tracking bet.bet_id)
        (statValue st bet) ((trackAlerts st.tracking bet.bet_id).length) =
        Except.ok (countingMilestone t (trackPrev st.tracking bet.bet_id)
          (statValue st bet) ((trackAlerts st.tracking bet.bet_id).length)) := by
      rcases hbt with h | h <;> simp [milestoneOf, counting1, h, htv, pyFloat]
    rw [check_eq_of_milestone st bet _ hm]
    simp [progCurrent, hsv]
  · intro st gid pid b row hfind
    simp only [update_player_stats, List.foldl] at hfind
    rw [find_upsertPlayerStats] at hfind
    cases hfind
    rfl

def c6bet : BetRow :=
  { bet_id := 61, game_id := 60, player_id := some 601, pitcher_id := none,
    team_id := none, bet_type := "Total Bases", target_value := some ⟨5, 2⟩,
    operator := some "over", units := 1, community_id := 1, status := "Live" }

/-- The spec's worked example: hits 4 with 1 double, 0 triples, 1 home run
stores singles = 2 and yields total bases 2*1 + 1*2 + 0*3 + 1*4 = 8. -/
def c6line : BattingLine :=
  { atBats := 5, hits := 4, doubles := 1, triples := 0, homeRuns := 1,
    runs := 2, rbi := 3, baseOnBalls := 0, strikeOuts := 1, stolenBases := 0 }

def c6st : DBState :=
  { bets := [c6bet], games := [], communities := [(1, "Basic")], players := [],
    player_stats := [battingRow 60 601 c6line],
    pitcher_stats := [], tracking := [], messages := [] }

theorem total_bases_derivation_witness :
    (battingRow 60 601 c6line).singles = 2 ∧
    progCurrent (check_bet_progress c6st c6bet) = some (fofInt 8) ∧
    (battingRow 60 601 c6line).singles =
      c6line.hits - c6line.doubles - c6line.triples - c6line.homeRuns := by
  refine ⟨by decide, ?_, ?_⟩
  · have h := (total_bases_derivation).1 c6st c6bet (battingRow 60 601 c6line)
      ⟨5, 2⟩ (by decide) (by decide) (by decide)
    rw [h]; decide
  · exact (total_bases_derivation).2 c6st 60 601 c6line (battingRow 60 601 c6line)
      (by decide)

/-! ### C10: under bets win immediately -/

/-- C10: an `under` bet whose current value is strictly below target
(including value 0 from a missing stat line) is a hit, and
`update_bet_tracking` immediately advances its status to Won, whether or
not the game update says the game is over. -/
theorem under_bet_wins_early (st : DBState) (bet : BetRow) (p : Progress)
    (o : String) (gu : GameUpdate)
    (h : check_bet_progress st bet = Except.ok p)
    (ho : bet.operator = some o) (hlow : pyLower o = "under")
    (hlt : flt p.current_value p.target_value = true) :
    p.is_hit = true ∧
    ∀ y ∈ (update_bet_tracking st bet p gu).bets, y.bet_id = bet.bet_id →
      y.status = "Won" := by
  have hhit : p.is_hit = true :=
    ((hit_determination st bet p h).2.1 o ho hlow).mpr hlt
  refine ⟨hhit, ?_⟩
  intro y hy hid
  simp only [update_bet_tracking, hhit, if_true] at hy
  obtain ⟨x, hx, hfx⟩ := List.mem_map.mp hy
  by_cases hxid : x.bet_id = bet.bet_id
  · rw [if_pos hxid] at hfx
    rw [← hfx]
  · rw [if_neg hxid] at hfx
    rw [← hfx] at hid
    exact absurd hid hxid

def c10bet : BetRow :=
  { bet_id := 101, game_id := 100, player_id := some 110, pitcher_id := none,
    team_id := none, bet_type := "Hits", target_value := some ⟨3, 2⟩,
    operator := some "under", units := 1, community_id := 1, status := "Pending" }

def c10st : DBState :=
  { bets := [c10bet],
    games := [{ game_id := 100, status := "In Progress", inning := 1,
                inning_half := "Top", home_score := 0, away_score := 0,
                home_team_id := 1, away_team_id := 2, game_date_today := true }],
    communities := [(1, "Basic")], players := [], player_stats := [],
    pitcher_stats := [], tracking := [], messages := [] }

def c10gu : GameUpdate :=
  { game_id := 100, status := "In Progress", is_final := false, inning := 1,
    inning_half := "Top", batting := [], pitching := [] }

/-! ### Ledger lemmas -/

theorem trackPrev_upsert (ts : List TrackingRow) (bet : BetRow) (p : Progress)
    (alerts : List (MilestoneHit × AlertRec)) (inn : Nat) :
    trackPrev (upsertTracking ts bet p alerts inn) bet.bet_id = p.current_value := by
  induction ts with
  | nil => simp [upsertTracking, trackPrev, findTracking, List.find?]
  | cons t rest ih =>
    by_cases hk : t.bet_id = bet.bet_id
    · simp [upsertTracking, hk, trackPrev, findTracking, List.find?]
    · simp only [upsertTracking, if_neg hk]
      simp only [trackPrev, findTracking] at ih ⊢
      rw [List.find?_cons_of_neg]
      · exact ih
      · simpa using hk

theorem trackAlerts_upsert (ts : List TrackingRow) (bet : BetRow) (p : Progress)
    (alerts : List (MilestoneHit × AlertRec)) (inn : Nat) :
    trackAlerts (upsertTracking ts bet p alerts inn) bet.bet_id = alerts := by
  induction ts with
  | nil => simp [upsertTracking, trackAlerts, findTracking, List.find?]
  | cons t rest ih =>
    by_cases hk : t.bet_id = bet.bet_id
    · simp [upsertTracking, hk, trackAlerts, findTracking, List.find?]
    · simp only [upsertTracking, if_neg hk]
      simp only [trackAlerts, findTracking] at ih ⊢
      rw [List.find?_cons_of_neg]
      · exact ih
      · simpa using hk

theorem statValue_ext (st1 st2 : DBState) (bet : BetRow)
    (h1 : st1.player_stats = st2.player_stats)
    (h2 : st1.pitcher_stats = st2.pitcher_stats)
    (h3 : st1.games = st2.games) :
    statValue st1 bet = statValue st2 bet := by
  unfold statValue
  rw [h1, h2, h3]

theorem statValue_update_bet_tracking (st : DBState) (bet bet' : BetRow)
    (p : Progress) (gu : GameUpdate) :
    statValue (update_bet_tracking st bet p gu) bet' = statValue st bet' :=
  statValue_ext _ _ _ rfl rfl rfl

theorem trackPrev_update (st : DBState) (bet : BetRow) (p : Progress)
    (gu : GameUpdate) :
    trackPrev (update_bet_tracking st bet p gu).tracking bet.bet_id =
      p.current_value := by
  simp only [update_bet_tracking]
  exact trackPrev_upsert _ _ _ _ _

theorem trackAlerts_update_some (st : DBState) (bet : BetRow) (p : Progress)
    (gu : GameUpdate) (k : MilestoneHit) (hk : p.milestone_hit = some k) :
    trackAlerts (update_bet_tracking st bet p gu).tracking bet.bet_id =
      upsertAlert (trackAlerts st.tracking bet.bet_id) k
        { inning := gu.inning, value := p.current_value } := by
  simp only [update_bet_tracking, hk]
  exact trackAlerts_upsert _ _ _ _ _

/-- Every value `statValue` can produce is a whole number (denominator 1):
stat columns, derived total bases, scores, and the 0/1 moneyline flag. -/
theorem pyf_ofNat_num (n : Nat) : (OfNat.ofNat n : PyF).num = Int.ofNat n := rfl

theorem pyf_ofNat_den (n : Nat) : (OfNat.ofNat n : PyF).den = 1 := rfl

theorem statValue_den (st : DBState) (bet : BetRow) : (statValue st bet).den = 1 := by
  unfold statValue
  repeat' split
  all_goals simp only [playerStatCol, mlValue]
  all_goals repeat' split
  all_goals rfl

/-- A whole-numbered float that is at least 1 is numerically nonzero. -/
theorem fle_one_feq_zero (c : PyF) (hden : c.den = 1) (h : fle 1 c = true) :
    feq c 0 = false := by
  rcases c with ⟨n, d⟩
  dsimp only at hden
  subst hden
  have h' : (Int.ofNat 1) * 1 ≤ n * 1 := of_decide_eq_true h
  rw [show feq ⟨n, 1⟩ 0 = (n * 1 == Int.ofNat 0 * 1) from rfl]
  rw [beq_eq_false_iff_ne]
  intro hc
  have h1 : (1 : Int) ≤ n := by simpa using h'
  have h0 : n = 0 := by simpa using hc
  omega

/-! ### C2: first-progress milestone -/

def c2bet : BetRow :=
  { bet_id := 21, game_id := 20, player_id := some 210, pitcher_id := none,
    team_id := none, bet_type := "Runs", target_value := some ⟨3, 2⟩,
    operator := some "over", units := 1, community_id := 1, status := "Live" }

def c2st : DBState :=
  { bets := [c2bet], games := [], communities := [(1, "Basic")], players := [],
    player_stats := [{ game_id := 20, player_id := 210, at_bats := 2, hits := 1,
                       singles := 1, doubles := 0, triples := 0, home_runs := 0,
                       runs := 1, rbis := 0, walks := 0, strikeouts := 0,
                       stolen_bases := 0 }],
    pitcher_stats := [], tracking := [], messages := [] }

/-- C2 counterexample: a Runs bet (counting stat, target 1.5 ≤ 2.5, previous
value 0, no alerts sent) whose current value reaches 1 fires no milestone at
all — `runs` (like `walks`) appears in no milestone branch of
`check_bet_progress`, so the claimed counting-stat set is wrong. -/
theorem runs_bet_fires_no_first_progress :
    pyLower c2bet.bet_type = "runs" ∧
    c2bet.target_value = some ⟨3, 2⟩ ∧
    fle ⟨3, 2⟩ ⟨5, 2⟩ = true ∧
    trackAlerts c2st.tracking c2bet.bet_id = [] ∧
    feq (trackPrev c2st.tracking c2bet.bet_id) 0 = true ∧
    fle 1 (statValue c2st c2bet) = true ∧
    progMilestone (check_bet_progress c2st c2bet) = some none := by decide

/-- C2 amended: for the counting-stat kinds that appear in the milestone
branches — home runs, hits, RBIs, stolen bases, strikeouts (but not Runs or
Walks, which fire nothing) — with target ≤ 2.5, previous value 0 and no
alerts sent, an evaluation seeing current ≥ 1 fires exactly the one
`first_progress` milestone; re-evaluating after the cursor update fires
none; and recording the same milestone key again upserts by key, leaving a
single fired-milestone entry. -/
theorem first_progress_fires_once (st : DBState) (bet : BetRow) (t : PyF)
    (gu : GameUpdate)
    (hbt : pyLower bet.bet_type ∈
      (["hrs", "home runs", "hits", "h", "rbis", "rbi", "sb", "stolen bases",
        "ks", "strikeouts"] : List String))
    (htv : bet.target_value = some t)
    (hle : fle t ⟨5, 2⟩ = true)
    (hprev : feq (trackPrev st.tracking bet.bet_id) 0 = true)
    (halerts : trackAlerts st.tracking bet.bet_id = [])
    (hcur : fle 1 (statValue st bet) = true) :
    progMilestone (check_bet_progress st bet) = some (some "first_progress") ∧
    progMilestone (check_bet_progress (evalAndTrack st bet gu) bet) = some none ∧
    (trackAlerts (evalAndTrack st bet gu).tracking bet.bet_id).length = 1 ∧
    (trackAlerts (trackTwice st bet gu).tracking bet.bet_id).length = 1 := by
  have hal0 : (trackAlerts st.tracking bet.bet_id).length = 0 := by
    rw [halerts]; rfl
  have hm : milestoneOf (pyLower bet.bet_type) bet.target_value
      (pyOr1 bet.target_value) (trackPrev st.tracking bet.bet_id)
      (statValue st bet) ((trackAlerts st.tracking bet.bet_id).length) =
      Except.ok (some MilestoneHit.intOne, some "first_progress", t) := by
    simp only [List.mem_cons, List.mem_singleton, List.not_mem_nil, or_false] at hbt
    rcases hbt with h | h | h | h | h | h | h | h | h | h <;>
      simp [milestoneOf, counting1, h, htv, pyFloat, countingMilestone,
        ksMilestone, hle, hprev, hcur, hal0]
  obtain ⟨p, hcp, hmh, hmk, hcv⟩ : ∃ p, check_bet_progress st bet = Except.ok p ∧
      p.milestone_hit = some MilestoneHit.intOne ∧
      p.milestone_kind = some "first_progress" ∧
      p.current_value = statValue st bet :=
    ⟨_, check_eq_of_milestone st bet _ hm, rfl, rfl, rfl⟩
  have hEval : evalAndTrack st bet gu = update_bet_tracking st bet p gu := by
    unfold evalAndTrack; rw [hcp]
  have h1 : progMilestone (check_bet_progress st bet) = some (some "first_progress") := by
    rw [hcp]; simp [progMilestone, hmk]
  have halerts1 : trackAlerts (evalAndTrack st bet gu).tracking bet.bet_id =
      [(MilestoneHit.intOne, { inning := gu.inning, value := p.current_value })] := by
    rw [hEval, trackAlerts_update_some st bet p gu _ hmh, halerts]
    rfl
  have hprev1 : trackPrev (evalAndTrack st bet gu).tracking bet.bet_id =
      p.current_value := by
    rw [hEval, trackPrev_update]
  have hsv1 : statValue (evalAndTrack st bet gu) bet = statValue st bet := by
    rw [hEval, statValue_update_bet_tracking]
  have hne : feq (statValue st bet) 0 = false :=
    fle_one_feq_zero _ (statValue_den st bet) hcur
  have hm2 : milestoneOf (pyLower bet.bet_type) bet.target_value
      (pyOr1 bet.target_value)
      (trackPrev (evalAndTrack st bet gu).tracking bet.bet_id)
      (statValue (evalAndTrack st bet gu) bet)
      ((trackAlerts (evalAndTrack st bet gu).tracking bet.bet_id).length) =
      Except.ok (none, none, t) := by
    rw [hprev1, hcv, hsv1, halerts1]
    simp only [List.mem_cons, List.mem_singleton, List.not_mem_nil, or_false] at hbt
    rcases hbt with h | h | h | h | h | h | h | h | h | h <;>
      simp [milestoneOf, counting1, h, htv, pyFloat, countingMilestone,
        ksMilestone, hle, hne]
  have h2 : progMilestone (check_bet_progress (evalAndTrack st bet gu) bet) =
      some none := by
    rw [check_eq_of_milestone _ _ _ hm2]; simp [progMilestone]
  have h3 : (trackAlerts (evalAndTrack st bet gu).tracking bet.bet_id).length = 1 := by
    rw [halerts1]; rfl
  have hTwice : trackTwice st bet gu =
      update_bet_tracking (update_bet_tracking st bet p gu) bet p gu := by
    unfold trackTwice; rw [hcp]
  have h4 : (trackAlerts (trackTwice st bet gu).tracking bet.bet_id).length = 1 := by
    rw [hTwice, trackAlerts_update_some _ _ _ _ _ hmh]
    rw [← hEval, halerts1]
    simp [upsertAlert]
  exact ⟨h1, h2, h3, h4⟩

def c2wBet : BetRow :=
  { bet_id := 22, game_id := 20, player_id := some 210, pitcher_id := none,
    team_id := none, bet_type := "Hits", target_value := some ⟨3, 2⟩,
    operator := some "over", units := 1, community_id := 1, status := "Live" }

def c2wSt : DBState :=
  { bets := [c2wBet], games := [], communities := [(1, "Basic")], players := [],
    player_stats := [{ game_id := 20, player_id := 210, at_bats := 2, hits := 1,
                       singles := 1, doubles := 0, triples := 0, home_runs := 0,
                       runs := 1, rbis := 0, walks := 0, strikeouts := 0,
                       stolen_bases := 0 }],
    pitcher_stats := [], tracking := [], messages := [] }

def c2wGu : GameUpdate :=
  { game_id := 20, status := "In Progress", is_final := false, inning := 2,
    inning_half := "Top", batting := [], pitching := [] }

theorem first_progress_fires_once_witness :
    fle 1 (statValue c2wSt c2wBet) = true ∧
    progMilestone (check_bet_progress c2wSt c2wBet) = some (some "first_progress") ∧
    progMilestone (check_bet_progress (evalAndTrack c2wSt c2wBet c2wGu) c2wBet) =
      some none ∧
    (trackAlerts (evalAndTrack c2wSt c2wBet c2wGu).tracking c2wBet.bet_id).length = 1 ∧
    (trackAlerts (trackTwice c2wSt c2wBet c2wGu).tracking c2wBet.bet_id).length = 1 := by
  refine ⟨by decide, ?_⟩
  exact first_progress_fires_once c2wSt c2wBet ⟨3, 2⟩ c2wGu
    (by decide) (by decide) (by decide) (by decide) (by decide) (by decide)

/-! ### C3: moneyline value is Final-gated -/

def c3g : GameRow :=
  { game_id := 30, status := "In Progress", inning := 5, inning_half := "Bottom",
    home_score := 5, away_score := 2, home_team_id := 301, away_team_id := 302,
    game_date_today := true }

def c3bet : BetRow :=
  { bet_id := 31, game_id := 30, player_id := none, pitcher_id := none,
    team_id := some 301, bet_type := "Moneyline", target_value := none,
    operator := none, units := 1, community_id := 1, status := "Live" }

def c3st : DBState :=
  { bets := [c3bet], games := [c3g], communities := [(1, "Basic")],
    players := [], player_stats := [], pitcher_stats := [], tracking := [],
    messages := [] }

/-- C3 counterexample: the bet's team leads 5-2 in a game that is still In
Progress, yet `check_bet_progress` reports `current_value = 0`, not 1 — the
claimed "1 if the bet's team currently leads" is false on the code. -/
theorem live_lead_moneyline_value_zero :
    c3g.status = "In Progress" ∧
    c3g.home_score > c3g.away_score ∧
    c3bet.team_id = some c3g.home_team_id ∧
    (progCurrent (check_bet_progress c3st c3bet)).map
      (fun v => (feq v 1, feq v 0)) = some (false, true) := by decide

/-- C3 amended: a moneyline bet's `current_value` is `mlValue`: 1 exactly
when the game's status is terminal (`Final`/`Game Over`/`Completed`) and
the bet's side won, and 0 otherwise — a live lead still reads 0.  With the
operator absent, `is_hit` holds iff that value is 1, so never before the
game is terminal; and the one-time `lead_change` milestone fires exactly
when the value reads 1 while the cursor's previous value is 0 and no alert
has been sent, which first happens on the run that sees the terminal
status. -/
theorem moneyline_value_final_gated (st : DBState) (bet : BetRow) (g : GameRow)
    (hbt : pyLower bet.bet_type = "moneyline" ∨ pyLower bet.bet_type = "ml")
    (hg : findGame st.games bet.game_id = some g) :
    progCurrent (check_bet_progress st bet) = some (mlValue g bet.team_id) ∧
    (¬ (g.status = "Final" ∨ g.status = "Game Over" ∨ g.status = "Completed") →
      progCurrent (check_bet_progress st bet) = some 0) ∧
    (bet.operator = none →
      (progIsHit (check_bet_progress st bet) = some true ↔
        feq (mlValue g bet.team_id) 1 = true)) ∧
    progMilestone (check_bet_progress st bet) =
      some (if feq (mlValue g bet.team_id) 1 &&
                feq (trackPrev st.tracking bet.bet_id) 0 &&
                ((trackAlerts st.tracking bet.bet_id).length == 0) then
              some "lead_change" else none) := by
  have hsv : statValue st bet = mlValue g bet.team_id := by
    rcases hbt with h | h <;> simp [statValue, h, statMapping, hg]
  have hm : milestoneOf (pyLower bet.bet_type) bet.target_value
      (pyOr1 bet.target_value) (trackPrev st.tracking bet.bet_id)
      (statValue st bet) ((trackAlerts st.tracking bet.bet_id).length) =
      Except.ok (if feq (statValue st bet) 1 &&
                    feq (trackPrev st.tracking bet.bet_id) 0 &&
                    ((trackAlerts st.tracking bet.bet_id).length == 0) then
          (some MilestoneHit.tookLead, some "lead_change", pyOr1 bet.target_value)
        else (none, none, pyOr1 bet.target_value)) := by
    rcases hbt with h | h <;> simp [milestoneOf, counting1, h]
  by_cases hcond : (feq (statValue st bet) 1 &&
      feq (trackPrev st.tracking bet.bet_id) 0 &&
      ((trackAlerts st.tracking bet.bet_id).length == 0)) = true
  · rw [if_pos hcond] at hm
    have hc := check_eq_of_milestone st bet _ hm
    rw [hc]
    refine ⟨by simp [progCurrent, hsv], ?_, ?_, ?_⟩
    · intro hnt
      have : mlValue g bet.team_id = 0 := by
        unfold mlValue; rw [if_neg hnt]
      simp [progCurrent, hsv, this]
    · intro hop
      rcases hbt with h | h <;>
        simp [progIsHit, isHitOf, hop, h, hsv]
    · rw [hsv] at hcond
      rw [if_pos hcond]
      simp [progMilestone]
  · rw [if_neg hcond] at hm
    have hc := check_eq_of_milestone st bet _ hm
    rw [hc]
    refine ⟨by simp [progCurrent, hsv], ?_, ?_, ?_⟩
    · intro hnt
      have : mlValue g bet.team_id = 0 := by
        unfold mlValue; rw [if_neg hnt]
      simp [progCurrent, hsv, this]
    · intro hop
      rcases hbt with h | h <;>
        simp [progIsHit, isHitOf, hop, h, hsv]
    · rw [hsv] at hcond
      rw [if_neg hcond]
      simp [progMilestone]

def c3gFinal : GameRow := { c3g with status := "Final" }

def c3stFinal : DBState := { c3st with games := [c3gFinal] }

theorem moneyline_value_final_gated_witness :
    progCurrent (check_bet_progress c3stFinal c3bet) =
      some (mlValue c3gFinal c3bet.team_id) ∧
    (progIsHit (check_bet_progress c3stFinal c3bet) = some true ↔
      feq (mlValue c3gFinal c3bet.team_id) 1 = true) := by
  have h := moneyline_value_final_gated c3stFinal c3bet c3gFinal
    (by decide) (by decide)
  exact ⟨h.1, h.2.2.1 (by decide)⟩

/-! ### C7: remaining-to-hit in milestone messages -/

def c7bet : BetRow :=
  { bet_id := 71, game_id := 70, player_id := none, pitcher_id := some 710,
    team_id := none, bet_type := "Strikeouts", target_value := some ⟨4, 1⟩,
    operator := some "over", units := 1, community_id := 1, status := "Live" }

def c7st : DBState :=
  { bets := [c7bet], games := [], communities := [(1, "Basic")], players := [],
    player_stats := [],
    pitcher_stats := [{ game_id := 70, pitcher_id := 710, innings_pitched := ⟨3, 1⟩,
                        strikeouts := 2, walks_allowed := 0, hits_allowed := 1,
                        earned_runs := 0, home_runs_allowed := 0, pitch_count := 40 }],
    tracking := [], messages := [] }

/-- The messages queued for the halfway milestone the strikeout bet above
produces (target 4, current 2, no alerts yet). -/
def c7Msgs : List LogMessage :=
  match check_bet_progress c7st c7bet with
  | Except.ok p => (queue_message c7st c7bet "Basic" p "milestone").messages
  | Except.error _ => []

/-- C7 counterexample: the halfway milestone message for an over bet with
target 4 and current 2 shows remaining = 2, computed as `int(target) -
int(current)` directly, while the claimed `ceil-if-fractional else
target+1, minus current` formula gives 3 — so "never `target − current`
directly" is false on the code. -/
theorem halfway_remaining_direct_subtraction :
    c7Msgs.map (fun m => (m.milestone_tag, m.shown_current, m.shown_remaining)) =
      [(some "halfway", some 2, some 2)] ∧
    claimRemaining ⟨4, 1⟩ 2 = 3 ∧
    (2 : Int) ≠ 3 := by decide

/-- C7 amended: within the alert budget, the `first_progress` and
`nearing_total` message branches compute remaining as
`max 0 ((ceil(target) if target is fractional else int(target)+1) - int(current))`
— the claimed formula clamped at 0 — but the `halfway` and `near_complete`
branches compute it directly as `int(target) - int(current)`. -/
theorem remaining_to_hit_by_branch (st : DBState) (bet : BetRow)
    (cname : String) (p : Progress)
    (hbudget : p.alerts_sent < maxUpdates bet cname) :
    (p.milestone_kind = some "first_progress" →
      (queue_message st bet cname p "milestone").messages.map
          (fun m => m.shown_remaining) =
        st.messages.map (fun m => m.shown_remaining) ++
          [some (max 0 (claimRemaining p.target_value (ftrunc p.current_value)))]) ∧
    (p.milestone_kind = some "nearing_total" →
      (queue_message st bet cname p "milestone").messages.map
          (fun m => m.shown_remaining) =
        st.messages.map (fun m => m.shown_remaining) ++
          [some (max 0 (claimRemaining p.target_value (ftrunc p.current_value)))]) ∧
    (p.milestone_kind = some "halfway" →
      (queue_message st bet cname p "milestone").messages.map
          (fun m => m.shown_remaining) =
        st.messages.map (fun m => m.shown_remaining) ++
          [some (ftrunc p.target_value - ftrunc p.current_value)]) ∧
    (p.milestone_kind = some "near_complete" →
      (queue_message st bet cname p "milestone").messages.map
          (fun m => m.shown_remaining) =
        st.messages.map (fun m => m.shown_remaining) ++
          [some (ftrunc p.target_value - ftrunc p.current_value)]) := by
  have hbc : ¬(maxUpdates bet cname ≤ p.alerts_sent) := Nat.not_le.mpr hbudget
  refine ⟨?_, ?_, ?_, ?_⟩ <;> intro hmk <;>
    simp [queue_message, messageContent, hmk, claimRemaining, neededTotal, hbc]

def c7wBet : BetRow :=
  { bet_id := 72, game_id := 70, player_id := none, pitcher_id := some 711,
    team_id := none, bet_type := "Strikeouts", target_value := some ⟨3, 2⟩,
    operator := some "over", units := 1, community_id := 1, status := "Live" }

def c7wSt : DBState :=
  { bets := [c7wBet], games := [], communities := [(1, "Basic")], players := [],
    player_stats := [],
    pitcher_stats := [{ game_id := 70, pitcher_id := 711, innings_pitched := ⟨1, 1⟩,
                        strikeouts := 1, walks_allowed := 0, hits_allowed := 0,
                        earned_runs := 0, home_runs_allowed := 0, pitch_count := 12 }],
    tracking := [], messages := [] }

theorem remaining_to_hit_by_branch_witness :
    (progOf c7wSt c7wBet).alerts_sent < maxUpdates c7wBet "Basic" ∧
    (queue_message c7wSt c7wBet "Basic" (progOf c7wSt c7wBet) "milestone").messages.map
        (fun m => m.shown_remaining) =
      c7wSt.messages.map (fun m => m.shown_remaining) ++
        [some (max 0 (claimRemaining (progOf c7wSt c7wBet).target_value
          (ftrunc (progOf c7wSt c7wBet).current_value)))] ∧
    max 0 (claimRemaining ⟨3, 2⟩ 1) = 1 := by
  refine ⟨by decide, ?_, by decide⟩
  exact (remaining_to_hit_by_branch c7wSt c7wBet "Basic" (progOf c7wSt c7wBet)
    (by decide)).1 (by decide)

/-! ### C9: the spread branch computes no value -/

def c9g : GameRow :=
  { game_id := 90, status := "In Progress", inning := 8, inning_half := "Top",
    home_score := 7, away_score := 0, home_team_id := 901, away_team_id := 902,
    game_date_today := true }

def c9bet : BetRow :=
  { bet_id := 91, game_id := 90, player_id := none, pitcher_id := none,
    team_id := some 901, bet_type := "Spread", target_value := some ⟨13, 2⟩,
    operator := some "over", units := 1, community_id := 1, status := "Live" }

def c9st : DBState :=
  { bets := [c9bet], games := [c9g], communities := [(1, "Basic")],
    players := [], player_stats := [], pitcher_stats := [], tracking := [],
    messages := [] }

/-- C9: the team-bet branch of `check_bet_progress` fetches the game row for
a spread bet but never assigns it a value, so even with the bet's team up
7-0 against a 6.5 line the reported value is 0, the bet is not a hit, and
no `covering` milestone fires — the code contradicts both the spec's spread
contract and its own `spread_covered` milestone machinery. -/
theorem spread_value_always_zero :
    c9g.home_score - c9g.away_score = 7 ∧
    flt ⟨13, 2⟩ (fofInt (c9g.home_score - c9g.away_score)) = true ∧
    (progCurrent (check_bet_progress c9st c9bet)).map (fun v => feq v 0) =
      some true ∧
    progIsHit (check_bet_progress c9st c9bet) = some false ∧
    progMilestone (check_bet_progress c9st c9bet) = some none := by decide

/-! ### Which state components each operation touches -/

theorem bets_queue_message (st : DBState) (bet : BetRow) (cn : String)
    (p : Progress) (k : String) : (queue_message st bet cn p k).bets = st.bets := by
  unfold queue_message
  split
  · rfl
  · split <;> rfl

theorem games_queue_message (st : DBState) (bet : BetRow) (cn : String)
    (p : Progress) (k : String) : (queue_message st bet cn p k).games = st.games := by
  unfold queue_message
  split
  · rfl
  · split <;> rfl

theorem games_update_bet_tracking (st : DBState) (bet : BetRow) (p : Progress)
    (gu : GameUpdate) : (update_bet_tracking st bet p gu).games = st.games := rfl

theorem bets_update_player_stats (st : DBState) (gid : Nat)
    (batting : List (Nat × BattingLine)) (pitching : List (Nat × PitchingLine)) :
    (update_player_stats st gid batting pitching).bets = st.bets := by
  unfold update_player_stats
  have h1 : ∀ (l : List (Nat × BattingLine)) (s : DBState),
      (l.foldl (fun s e =>
        { s with player_stats := upsertPlayerStats s.player_stats gid e.1 e.2 }) s).bets =
        s.bets := by
    intro l
    induction l with
    | nil => intro s; rfl
    | cons e rest ih => intro s; rw [List.foldl_cons]; exact ih _
  have h2 : ∀ (l : List (Nat × PitchingLine)) (s : DBState),
      (l.foldl (fun s e =>
        { s with pitcher_stats := upsertPitcherStats s.pitcher_stats gid e.1 e.2 }) s).bets =
        s.bets := by
    intro l
    induction l with
    | nil => intro s; rfl
    | cons e rest ih => intro s; rw [List.foldl_cons]; exact ih _
  rw [h2, h1]

theorem games_update_player_stats (st : DBState) (gid : Nat)
    (batting : List (Nat × BattingLine)) (pitching : List (Nat × PitchingLine)) :
    (update_player_stats st gid batting pitching).games = st.games := by
  unfold update_player_stats
  have h1 : ∀ (l : List (Nat × BattingLine)) (s : DBState),
      (l.foldl (fun s e =>
        { s with player_stats := upsertPlayerStats s.player_stats gid e.1 e.2 }) s).games =
        s.games := by
    intro l
    induction l with
    | nil => intro s; rfl
    | cons e rest ih => intro s; rw [List.foldl_cons]; exact ih _
  have h2 : ∀ (l : List (Nat × PitchingLine)) (s : DBState),
      (l.foldl (fun s e =>
        { s with pitcher_stats := upsertPitcherStats s.pitcher_stats gid e.1 e.2 }) s).games =
        s.games := by
    intro l
    induction l with
    | nil => intro s; rfl
    | cons e rest ih => intro s; rw [List.foldl_cons]; exact ih _
  rw [h2, h1]

theorem bets_update_game_stats (st : DBState) (gid : Nat) (feed : Option GameFeed) :
    (update_game_stats st gid feed).1.bets = st.bets := by
  cases feed <;> rfl

/-! ### C1: terminal bet statuses survive a whole run -/

theorem statusInv_update_bet_tracking (st : DBState) (bet : BetRow) (p : Progress)
    (gu : GameUpdate) (i : Nat) (s : String) (hne : bet.bet_id ≠ i)
    (h : ∀ y ∈ st.bets, y.bet_id = i → y.status = s) :
    ∀ y ∈ (update_bet_tracking st bet p gu).bets, y.bet_id = i → y.status = s := by
  intro y hy hid
  simp only [update_bet_tracking] at hy
  split at hy
  · obtain ⟨x, hx, hfx⟩ := List.mem_map.mp hy
    by_cases hxid : x.bet_id = bet.bet_id
    · rw [if_pos hxid] at hfx
      rw [← hfx] at hid
      exact absurd (hxid ▸ hid) hne
    · rw [if_neg hxid] at hfx
      rw [← hfx]
      exact h x hx (hfx ▸ hid)
  · exact h y hy hid

theorem statusInv_processBetCore (gu : GameUpdate) (r : ActiveRow) (st : DBState)
    (p : Progress) (i : Nat) (s : String) (hne : r.bet.bet_id ≠ i)
    (h : ∀ y ∈ st.bets, y.bet_id = i → y.status = s) :
    ∀ y ∈ (processBetCore gu r st p).bets, y.bet_id = i → y.status = s := by
  simp only [processBetCore]
  have h1 : ∀ y ∈ (if p.milestone_hit.isSome ∧ gu.is_final = false then
      queue_message st r.bet r.community_name p "milestone" else st).bets,
      y.bet_id = i → y.status = s := by
    split
    · rw [bets_queue_message]; exact h
    · exact h
  have h2 : ∀ y ∈ (if p.is_hit = true ∧ r.bet.status ≠ "Won" then
      queue_message (if p.milestone_hit.isSome ∧ gu.is_final = false then
        queue_message st r.bet r.community_name p "milestone" else st)
        r.bet r.community_name p "won"
      else (if p.milestone_hit.isSome ∧ gu.is_final = false then
        queue_message st r.bet r.community_name p "milestone" else st)).bets,
      y.bet_id = i → y.status = s := by
    split
    · rw [bets_queue_message]; exact h1
    · exact h1
  have h3 := statusInv_update_bet_tracking _ r.bet p gu i s hne h2
  split
  · rw [bets_queue_message]; exact h3
  · exact h3

theorem statusInv_processBet (bf : Nat → Option String) (gu : GameUpdate)
    (acc : DBState × Summary) (r : ActiveRow) (i : Nat) (s : String)
    (hne : r.bet.bet_id ≠ i)
    (h : ∀ y ∈ acc.1.bets, y.bet_id = i → y.status = s) :
    ∀ y ∈ (processBet bf gu acc r).1.bets, y.bet_id = i → y.status = s := by
  unfold processBet
  cases bf r.bet.bet_id with
  | some e => exact h
  | none =>
    cases check_bet_progress acc.1 r.bet with
    | error e => exact h
    | ok p => exact statusInv_processBetCore gu r acc.1 p i s hne h

theorem statusInv_betLoop (bf : Nat → Option String) (gu : GameUpdate) (i : Nat)
    (s : String) :
    ∀ (rs : List ActiveRow) (st : DBState) (sum : Summary),
      (∀ r ∈ rs, r.bet.bet_id ≠ i) →
      (∀ y ∈ st.bets, y.bet_id = i → y.status = s) →
      ∀ y ∈ ((rs.foldl (processBet bf gu) (st, sum)).1).bets,
        y.bet_id = i → y.status = s := by
  intro rs
  induction rs with
  | nil => intro st sum _ h; exact h
  | cons r rest ih =>
    intro st sum hne h
    rw [List.foldl_cons]
    exact ih _ _ (fun x hx => hne x (List.mem_cons_of_mem _ hx))
      (statusInv_processBet bf gu (st, sum) r i s (hne r (List.mem_cons_self _ _)) h)

theorem statusInv_processGame (feeds : Nat → Option GameFeed)
    (gf bf : Nat → Option String) (acc : DBState × Summary)
    (grp : Nat × List ActiveRow) (i : Nat) (s : String)
    (hne : ∀ r ∈ grp.2, r.bet.bet_id ≠ i)
    (h : ∀ y ∈ acc.1.bets, y.bet_id = i → y.status = s) :
    ∀ y ∈ (processGame feeds gf bf acc grp).1.bets, y.bet_id = i → y.status = s := by
  simp only [processGame]
  have hu : ∀ y ∈ (update_game_stats acc.1 grp.1 (feeds grp.1)).1.bets,
      y.bet_id = i → y.status = s := by
    rw [bets_update_game_stats]; exact h
  cases hres : (update_game_stats acc.1 grp.1 (feeds grp.1)).2 with
  | none => exact hu
  | some gu =>
    cases hgf : gf grp.1 with
    | some e => exact hu
    | none =>
      apply statusInv_betLoop bf gu i s grp.2 _ _ hne
      rw [bets_update_player_stats]
      exact hu

theorem statusInv_gameLoop (feeds : Nat → Option GameFeed)
    (gf bf : Nat → Option String) (i : Nat) (s : String) :
    ∀ (groups : List (Nat × List ActiveRow)) (st : DBState) (sum : Summary),
      (∀ grp ∈ groups, ∀ r ∈ grp.2, r.bet.bet_id ≠ i) →
      (∀ y ∈ st.bets, y.bet_id = i → y.status = s) →
      ∀ y ∈ ((groups.foldl (processGame feeds gf bf) (st, sum)).1).bets,
        y.bet_id = i → y.status = s := by
  intro groups
  induction groups with
  | nil => intro st sum _ h; exact h
  | cons grp rest ih =>
    intro st sum hne h
    rw [List.foldl_cons]
    have step := statusInv_processGame feeds gf bf (st, sum) grp i s
      (hne grp (List.mem_cons_self _ _)) h
    exact ih _ _ (fun g hg => hne g (List.mem_cons_of_mem _ hg)) step

theorem statusInv_markLost (st : DBState) (i : Nat) (s : String)
    (hts : s = "Won" ∨ s = "Lost")
    (h : ∀ y ∈ st.bets, y.bet_id = i → y.status = s) :
    ∀ y ∈ (markLostSweep st).bets, y.bet_id = i → y.status = s := by
  intro y hy hid
  simp only [markLostSweep] at hy
  obtain ⟨x, hx, hfx⟩ := List.mem_map.mp hy
  split at hfx
  case isTrue hcond =>
    have hxid : x.bet_id = i := by
      rw [← hfx] at hid; exact hid
    have hxs := h x hx hxid
    rcases hcond.1 with h1 | h1 <;> rcases hts with h2 | h2 <;>
      rw [h1, h2] at hxs <;> simp at hxs
  case isFalse =>
    rw [← hfx]
    exact h x hx (hfx ▸ hid)

theorem groupByGame_mem (rows : List ActiveRow) :
    ∀ grp ∈ groupByGame rows, ∀ r ∈ grp.2, r ∈ rows := by
  have key : ∀ (P : ActiveRow → Prop) (l : List ActiveRow)
      (acc : List (Nat × List ActiveRow)),
      (∀ grp ∈ acc, ∀ r ∈ grp.2, P r) → (∀ r ∈ l, P r) →
      ∀ grp ∈ l.foldl (fun acc r =>
        if acc.any (fun g => g.1 = r.bet.game_id) then
          acc.map (fun g => if g.1 = r.bet.game_id then (g.1, g.2 ++ [r]) else g)
        else acc ++ [(r.bet.game_id, [r])]) acc, ∀ r ∈ grp.2, P r := by
    intro P l
    induction l with
    | nil => intro acc hacc _; simpa using hacc
    | cons x xs ih =>
      intro acc hacc hl
      rw [List.foldl_cons]
      apply ih
      · intro grp hgrp r hr
        split at hgrp
        · obtain ⟨g, hg, hfg⟩ := List.mem_map.mp hgrp
          rw [← hfg] at hr
          split at hr
          · rcases List.mem_append.mp hr with hin | hin
            · exact hacc g hg r hin
            · rw [List.mem_singleton.mp hin]
              exact hl x (List.mem_cons_self _ _)
          · exact hacc g hg r hr
        · rcases List.mem_append.mp hgrp with hin | hin
          · exact hacc grp hin r hr
          · rw [List.mem_singleton.mp hin] at hr
            rw [List.mem_singleton.mp hr]
            exact hl x (List.mem_cons_self _ _)
      · intro r hr
        exact hl r (List.mem_cons_of_mem _ hr)
  exact key (fun r => r ∈ rows) rows [] (by simp) (fun r hr => hr)

theorem mem_active (st : DBState) (r : ActiveRow)
    (hr : r ∈ get_active_game_bets st) :
    r.bet ∈ st.bets ∧ (r.bet.status = "Pending" ∨ r.bet.status = "Live") := by
  unfold get_active_game_bets at hr
  obtain ⟨b, hb, hfb⟩ := List.mem_filterMap.mp hr
  by_cases hs : b.status = "Pending" ∨ b.status = "Live"
  · rw [if_pos hs] at hfb
    split at hfb
    next g heq =>
      split at hfb
      · split at hfb
        next cn heq2 =>
          simp only [Option.some.injEq] at hfb
          rw [← hfb]
          exact ⟨hb, hs⟩
        next heq2 => simp at hfb
      · simp at hfb
    next heq => simp at hfb
  · rw [if_neg hs] at hfb
    simp at hfb

theorem active_id_ne (st : DBState) (b : BetRow)
    (hnd : (st.bets.map (fun x => x.bet_id)).Nodup)
    (hb : b ∈ st.bets) (hterm : b.status = "Won" ∨ b.status = "Lost") :
    ∀ r ∈ get_active_game_bets st, r.bet.bet_id ≠ b.bet_id := by
  intro r hr heq
  obtain ⟨hmem, hs⟩ := mem_active st r hr
  have heqb : r.bet = b := List.inj_on_of_nodup_map hnd hmem hb heq
  rw [heqb] at hs
  rcases hs with h1 | h1 <;> rcases hterm with h2 | h2 <;>
    rw [h1] at h2 <;> simp at h2

/-- C1: a bet whose stored status is already Won or Lost when a run of
`track_all_live_games` begins has the same status in the state the run
returns: per-bet evaluation only touches bets the active query selected
(status Pending or Live), and the final Lost sweep only rewrites bets still
in Pending or Live. -/
theorem terminal_status_never_reverts (st : DBState)
    (feeds : Nat → Option GameFeed) (gf bf : Nat → Option String) (elapsed : PyF)
    (b : BetRow)
    (hnd : (st.bets.map (fun x => x.bet_id)).Nodup)
    (hb : b ∈ st.bets) (hterm : b.status = "Won" ∨ b.status = "Lost") :
    ∀ y ∈ (track_all_live_games st feeds gf bf elapsed).1.bets,
      y.bet_id = b.bet_id → y.status = b.status := by
  have hInv0 : ∀ y ∈ st.bets, y.bet_id = b.bet_id → y.status = b.status := by
    intro y hy hid
    rw [List.inj_on_of_nodup_map hnd hy hb hid]
  have hne := active_id_ne st b hnd hb hterm
  unfold track_all_live_games
  by_cases hA : (get_active_game_bets st).isEmpty
  · rw [if_pos hA]
    exact hInv0
  · rw [if_neg hA]
    apply statusInv_markLost _ b.bet_id b.status hterm
    apply statusInv_gameLoop feeds gf bf b.bet_id b.status _ _ _ _ hInv0
    intro grp hgrp r hr
    exact hne r (groupByGame_mem _ grp hgrp r hr)

/-! ### C4: the Lost sweep -/

theorem betIds_update_bet_tracking (st : DBState) (bet : BetRow) (p : Progress)
    (gu : GameUpdate) :
    (update_bet_tracking st bet p gu).bets.map (fun b => b.bet_id) =
      st.bets.map (fun b => b.bet_id) := by
  simp only [update_bet_tracking]
  split
  · rw [List.map_map]
    apply List.map_congr_left
    intro x _
    by_cases hx : x.bet_id = bet.bet_id
    · simp [hx]
    · simp [hx]
  · rfl

theorem betIds_processBet (bf : Nat → Option String) (gu : GameUpdate)
    (acc : DBState × Summary) (r : ActiveRow) :
    (processBet bf gu acc r).1.bets.map (fun b => b.bet_id) =
      acc.1.bets.map (fun b => b.bet_id) ∧
    (processBet bf gu acc r).1.games = acc.1.games := by
  unfold processBet
  cases bf r.bet.bet_id with
  | some e => exact ⟨rfl, rfl⟩
  | none =>
    cases check_bet_progress acc.1 r.bet with
    | error e => exact ⟨rfl, rfl⟩
    | ok p =>
      simp only [processBetCore]
      constructor
      · have h1 : (if p.milestone_hit.isSome ∧ gu.is_final = false then
            queue_message acc.1 r.bet r.community_name p "milestone" else acc.1).bets =
            acc.1.bets := by
          split
          · rw [bets_queue_message]
          · rfl
        split
        · rw [bets_queue_message, betIds_update_bet_tracking]
          split
          · rw [bets_queue_message, h1]
          · rw [h1]
        · rw [betIds_update_bet_tracking]
          split
          · rw [bets_queue_message, h1]
          · rw [h1]
      · have h1 : (if p.milestone_hit.isSome ∧ gu.is_final = false then
            queue_message acc.1 r.bet r.community_name p "milestone" else acc.1).games =
            acc.1.games := by
          split
          · rw [games_queue_message]
          · rfl
        split
        · rw [games_queue_message, games_update_bet_tracking]
          split
          · rw [games_queue_message, h1]
          · rw [h1]
        · rw [games_update_bet_tracking]
          split
          · rw [games_queue_message, h1]
          · rw [h1]

theorem betIds_betLoop (bf : Nat → Option String) (gu : GameUpdate) :
    ∀ (rs : List ActiveRow) (st : DBState) (sum : Summary),
      ((rs.foldl (processBet bf gu) (st, sum)).1.bets.map (fun b => b.bet_id) =
        st.bets.map (fun b => b.bet_id)) ∧
      (rs.foldl (processBet bf gu) (st, sum)).1.games = st.games := by
  intro rs
  induction rs with
  | nil => intro st sum; exact ⟨rfl, rfl⟩
  | cons r rest ih =>
    intro st sum
    rw [List.foldl_cons]
    obtain ⟨hstep1, hstep2⟩ := betIds_processBet bf gu (st, sum) r
    obtain ⟨hrec1, hrec2⟩ := ih (processBet bf gu (st, sum) r).1
      (processBet bf gu (st, sum) r).2
    exact ⟨hrec1.trans hstep1, hrec2.trans hstep2⟩

theorem gameIds_update_game_stats (st : DBState) (gid : Nat)
    (feed : Option GameFeed) :
    (update_game_stats st gid feed).1.games.map (fun g => g.game_id) =
      st.games.map (fun g => g.game_id) := by
  cases feed with
  | none => rfl
  | some f =>
    simp only [update_game_stats, setGameFromFeed]
    rw [List.map_map]
    apply List.map_congr_left
    intro x _
    by_cases hx : x.game_id = gid
    · simp [hx]
    · simp [hx]

theorem ids_processGame (feeds : Nat → Option GameFeed)
    (gf bf : Nat → Option String) (acc : DBState × Summary)
    (grp : Nat × List ActiveRow) :
    ((processGame feeds gf bf acc grp).1.bets.map (fun b => b.bet_id) =
      acc.1.bets.map (fun b => b.bet_id)) ∧
    (processGame feeds gf bf acc grp).1.games.map (fun g => g.game_id) =
      acc.1.games.map (fun g => g.game_id) := by
  simp only [processGame]
  cases hres : (update_game_stats acc.1 grp.1 (feeds grp.1)).2 with
  | none =>
    constructor
    · rw [bets_update_game_stats]
    · rw [gameIds_update_game_stats]
  | some gu =>
    cases hgf : gf grp.1 with
    | some e =>
      constructor
      · rw [bets_update_game_stats]
      · rw [gameIds_update_game_stats]
    | none =>
      obtain ⟨h1, h2⟩ := betIds_betLoop bf gu grp.2
        (update_player_stats (update_game_stats acc.1 grp.1 (feeds grp.1)).1
          grp.1 gu.batting gu.pitching) acc.2
      constructor
      · rw [h1, bets_update_player_stats, bets_update_game_stats]
      · rw [h2, games_update_player_stats, gameIds_update_game_stats]

theorem ids_gameLoop (feeds : Nat → Option GameFeed)
    (gf bf : Nat → Option String) :
    ∀ (groups : List (Nat × List ActiveRow)) (st : DBState) (sum : Summary),
      ((groups.foldl (processGame feeds gf bf) (st, sum)).1.bets.map
          (fun b => b.bet_id) = st.bets.map (fun b => b.bet_id)) ∧
      (groups.foldl (processGame feeds gf bf) (st, sum)).1.games.map
          (fun g => g.game_id) = st.games.map (fun g => g.game_id) := by
  intro groups
  induction groups with
  | nil => intro st sum; exact ⟨rfl, rfl⟩
  | cons grp rest ih =>
    intro st sum
    rw [List.foldl_cons]
    obtain ⟨hstep1, hstep2⟩ := ids_processGame feeds gf bf (st, sum) grp
    obtain ⟨hrec1, hrec2⟩ := ih (processGame feeds gf bf (st, sum) grp).1
      (processGame feeds gf bf (st, sum) grp).2
    exact ⟨hrec1.trans hstep1, hrec2.trans hstep2⟩

theorem findGame_of_nodup (gs : List GameRow) (g : GameRow) (gid : Nat)
    (hG : (gs.map (fun x => x.game_id)).Nodup) (hg : g ∈ gs)
    (hid : g.game_id = gid) : findGame gs gid = some g := by
  cases hf : findGame gs gid with
  | none =>
    exfalso
    have := List.find?_eq_none.mp hf g hg
    simp [hid] at this
  | some g' =>
    have hmem := List.mem_of_find?_eq_some hf
    have hpred := List.find?_some hf
    have hid' : g'.game_id = gid := by simpa using hpred
    have : g' = g := List.inj_on_of_nodup_map hG hmem hg (hid'.trans hid.symm)
    rw [this]

theorem markLost_post (st : DBState)
    (hB : (st.bets.map (fun b => b.bet_id)).Nodup)
    (hG : (st.games.map (fun g => g.game_id)).Nodup) :
    ∀ y ∈ (markLostSweep st).bets, (y.status = "Pending" ∨ y.status = "Live") →
    ∀ g ∈ st.games, g.game_id = y.game_id →
      ¬(g.status = "Final" ∨ g.status = "Game Over" ∨ g.status = "Completed") := by
  intro y hy hyP g hg hgid hterm
  simp only [markLostSweep] at hy
  obtain ⟨x, hx, hfx⟩ := List.mem_map.mp hy
  split at hfx
  case isTrue hcond =>
    rw [← hfx] at hyP
    rcases hyP with h1 | h1 <;> simp at h1
  case isFalse hcond =>
    rw [← hfx] at hyP hgid
    apply hcond
    refine ⟨hyP, ?_, ?_⟩
    · unfold gameIsTerminal
      rw [findGame_of_nodup st.games g x.game_id hG hg hgid]
      exact decide_eq_true hterm
    · intro hwon
      obtain ⟨z, hz, hfz⟩ := List.mem_filterMap.mp hwon
      by_cases hzs : z.status = "Won"
      · rw [if_pos hzs] at hfz
        simp only [Option.some.injEq] at hfz
        have : z = x := List.inj_on_of_nodup_map hB hz hx hfz
        rw [← this] at hyP
        rcases hyP with h1 | h1 <;> rw [h1] at hzs <;> simp at hzs
      · rw [if_neg hzs] at hfz
        cases hfz

/-- C4 amended: whenever the active-bet query returns at least one row, the
run ends with the Lost sweep, after which no bet is still Pending or Live
while its game's stored status is terminal; but when the query returns no
rows the run returns early (source lines 666-668) and the sweep does not
execute, so such bets survive untouched (see the counterexample). -/
theorem lost_sweep_when_bets_active (st : DBState)
    (feeds : Nat → Option GameFeed) (gf bf : Nat → Option String) (elapsed : PyF)
    (hA : ¬(get_active_game_bets st).isEmpty = true)
    (hB : (st.bets.map (fun b => b.bet_id)).Nodup)
    (hG : (st.games.map (fun g => g.game_id)).Nodup) :
    ∀ y ∈ (track_all_live_games st feeds gf bf elapsed).1.bets,
      (y.status = "Pending" ∨ y.status = "Live") →
      ∀ g ∈ (track_all_live_games st feeds gf bf elapsed).1.games,
        g.game_id = y.game_id →
        ¬(g.status = "Final" ∨ g.status = "Game Over" ∨ g.status = "Completed") := by
  unfold track_all_live_games
  rw [if_neg hA]
  obtain ⟨h1, h2⟩ := ids_gameLoop feeds gf bf (groupByGame (get_active_game_bets st))
    st { bets_checked := (get_active_game_bets st).length,
         games_tracked := (groupByGame (get_active_game_bets st)).length }
  have hB' := h1 ▸ hB
  have hG' := h2 ▸ hG
  exact markLost_post _ hB' hG'

def c4bet : BetRow :=
  { bet_id := 41, game_id := 40, player_id := some 410, pitcher_id := none,
    team_id := none, bet_type := "Hits", target_value := some ⟨3, 2⟩,
    operator := some "over", units := 1, community_id := 1, status := "Pending" }

def c4g : GameRow :=
  { game_id := 40, status := "Final", inning := 9, inning_half := "Bottom",
    home_score := 3, away_score := 2, home_team_id := 1, away_team_id := 2,
    game_date_today := true }

def c4st : DBState :=
  { bets := [c4bet], games := [c4g], communities := [(1, "Basic")],
    players := [(410, "A")], player_stats := [], pitcher_stats := [],
    tracking := [], messages := [] }

/-- C4 counterexample: the only bet is Pending on a game already Final, so
the active-bet query (which only joins non-terminal games) returns no rows;
the run returns early and the "unconditional" Lost sweep never executes —
the bet is still Pending after the run, against the claim. -/
theorem empty_active_skips_lost_sweep :
    get_active_game_bets c4st = [] ∧
    c4g.status = "Final" ∧ c4bet.status = "Pending" ∧
    (track_all_live_games c4st (fun _ => none) (fun _ => none) (fun _ => none)
      1).1.bets.map (fun b => b.status) = ["Pending"] := by decide

def c4wLive : BetRow :=
  { bet_id := 42, game_id := 45, player_id := some 420, pitcher_id := none,
    team_id := none, bet_type := "Hits", target_value := some ⟨3, 2⟩,
    operator := some "over", units := 1, community_id := 1, status := "Live" }

def c4wSt : DBState :=
  { bets := [c4bet, c4wLive],
    games := [c4g,
      { game_id := 45, status := "In Progress", inning := 3, inning_half := "Top",
        home_score := 0, away_score := 0, home_team_id := 3, away_team_id := 4,
        game_date_today := true }],
    communities := [(1, "Basic")], players := [(410, "A"), (420, "B")],
    player_stats := [], pitcher_stats := [], tracking := [], messages := [] }

theorem lost_sweep_when_bets_active_witness :
    (¬(get_active_game_bets c4wSt).isEmpty = true ∧
      (c4wSt.bets.map (fun b => b.bet_id)).Nodup ∧
      (c4wSt.games.map (fun g => g.game_id)).Nodup) ∧
    (track_all_live_games c4wSt (fun _ => none) (fun _ => none) (fun _ => none)
      1).1.bets.map (fun b => b.status) = ["Lost", "Live"] ∧
    ∀ y ∈ (track_all_live_games c4wSt (fun _ => none) (fun _ => none)
        (fun _ => none) 1).1.bets,
      (y.status = "Pending" ∨ y.status = "Live") →
      ∀ g ∈ (track_all_live_games c4wSt (fun _ => none) (fun _ => none)
          (fun _ => none) 1).1.games,
        g.game_id = y.game_id →
        ¬(g.status = "Final" ∨ g.status = "Game Over" ∨ g.status = "Completed") :=
  ⟨⟨by decide, by decide, by decide⟩, by decide,
   lost_sweep_when_bets_active c4wSt (fun _ => none) (fun _ => none)
     (fun _ => none) 1 (by decide) (by decide) (by decide)⟩

/-! ### C8: the run summary -/

theorem milestoneOf_error_of_cond (bt : String) (tv : Option PyF)
    (t0 prev cur : PyF) (al : Nat)
    (hc : bt ∈ counting1 ∨ bt = "ks" ∨ bt = "strikeouts" ∨ bt = "total")
    (htv : tv = none) :
    milestoneOf bt tv t0 prev cur al = Except.error floatNoneMsg := by
  subst htv
  rcases hc with h | h | h | h
  · unfold milestoneOf
    rw [if_pos h]
    rfl
  · subst h; rfl
  · subst h; rfl
  · subst h; rfl

theorem milestoneOf_ok_of_not (bt : String) (tv : Option PyF)
    (t0 prev cur : PyF) (al : Nat)
    (hc : ¬((bt ∈ counting1 ∨ bt = "ks" ∨ bt = "strikeouts" ∨ bt = "total") ∧
      tv = none)) :
    ∃ v, milestoneOf bt tv t0 prev cur al = Except.ok v := by
  cases htv : tv with
  | some t =>
    unfold milestoneOf
    split_ifs <;> exact ⟨_, rfl⟩
  | none =>
    subst htv
    have hd : ¬(bt ∈ counting1 ∨ bt = "ks" ∨ bt = "strikeouts" ∨ bt = "total") :=
      fun hdd => hc ⟨hdd, rfl⟩
    push_neg at hd
    obtain ⟨h1, h2, h3, h4⟩ := hd
    unfold milestoneOf
    rw [if_neg h1, if_neg (by simp [h2, h3])]
    by_cases hml : bt = "moneyline" ∨ bt = "ml"
    · rw [if_pos hml]; exact ⟨_, rfl⟩
    · rw [if_neg hml]
      by_cases hsp : bt = "spread"
      · rw [if_pos hsp]; exact ⟨_, rfl⟩
      · rw [if_neg hsp, if_neg h4]
        exact ⟨_, rfl⟩

theorem checkFails_some (st : DBState) (b : BetRow) (e : String)
    (h : checkFails b = some e) :
    check_bet_progress st b = Except.error e := by
  simp only [checkFails] at h
  split at h
  case isTrue hc =>
    simp only [Option.some.injEq] at h
    subst h
    simp only [check_bet_progress]
    rw [milestoneOf_error_of_cond _ _ _ _ _ _ hc.1 hc.2]
    rfl
  case isFalse => cases h

theorem checkFails_none (st : DBState) (b : BetRow)
    (h : checkFails b = none) :
    ∃ p, check_bet_progress st b = Except.ok p := by
  simp only [checkFails] at h
  split at h
  case isTrue => cases h
  case isFalse hc =>
    obtain ⟨v, hv⟩ := milestoneOf_ok_of_not (pyLower b.bet_type) b.target_value
      (pyOr1 b.target_value) (trackPrev st.tracking b.bet_id) (statValue st b)
      ((trackAlerts st.tracking b.bet_id).length) hc
    exact ⟨_, check_eq_of_milestone st b v hv⟩

theorem processBetSum_fields (gu : GameUpdate) (r : ActiveRow) (p : Progress)
    (sum : Summary) :
    (processBetSum gu r p sum).errors = sum.errors ∧
    (processBetSum gu r p sum).bets_updated = sum.bets_updated + 1 ∧
    (processBetSum gu r p sum).bets_checked = sum.bets_checked ∧
    (processBetSum gu r p sum).games_tracked = sum.games_tracked ∧
    (processBetSum gu r p sum).duration_seconds = sum.duration_seconds := by
  simp only [processBetSum]
  split <;> exact ⟨rfl, rfl, rfl, rfl, rfl⟩

theorem processBet_sum_eq (bf : Nat → Option String) (gu : GameUpdate)
    (acc : DBState × Summary) (r : ActiveRow) :
    ((processBet bf gu acc r).2.errors = acc.2.errors ++ betUnitErrors bf r) ∧
    ((processBet bf gu acc r).2.bets_updated =
      acc.2.bets_updated + (if betOk bf r then 1 else 0)) ∧
    ((processBet bf gu acc r).2.bets_checked = acc.2.bets_checked) ∧
    ((processBet bf gu acc r).2.games_tracked = acc.2.games_tracked) ∧
    ((processBet bf gu acc r).2.duration_seconds = acc.2.duration_seconds) := by
  unfold processBet betUnitErrors betOk
  cases hbf : bf r.bet.bet_id with
  | some e => simp [addError]
  | none =>
    cases hcf : checkFails r.bet with
    | some e =>
      rw [checkFails_some acc.1 r.bet e hcf]
      simp [addError]
    | none =>
      obtain ⟨p, hcp⟩ := checkFails_none acc.1 r.bet hcf
      rw [hcp]
      obtain ⟨f1, f2, f3, f4, f5⟩ := processBetSum_fields gu r p acc.2
      simp [f1, f2, f3, f4, f5]

theorem betLoop_sum (bf : Nat → Option String) (gu : GameUpdate) :
    ∀ (rs : List ActiveRow) (st : DBState) (sum : Summary),
      ((rs.foldl (processBet bf gu) (st, sum)).2.errors =
        sum.errors ++ (rs.map (betUnitErrors bf)).flatten) ∧
      ((rs.foldl (processBet bf gu) (st, sum)).2.bets_updated =
        sum.bets_updated + rs.countP (fun r => betOk bf r)) ∧
      ((rs.foldl (processBet bf gu) (st, sum)).2.bets_checked = sum.bets_checked) ∧
      ((rs.foldl (processBet bf gu) (st, sum)).2.games_tracked = sum.games_tracked) ∧
      ((rs.foldl (processBet bf gu) (st, sum)).2.duration_seconds =
        sum.duration_seconds) := by
  intro rs
  induction rs with
  | nil => intro st sum; simp
  | cons r rest ih =>
    intro st sum
    rw [List.foldl_cons]
    obtain ⟨e1, e2, e3, e4, e5⟩ := processBet_sum_eq bf gu (st, sum) r
    obtain ⟨f1, f2, f3, f4, f5⟩ := ih (processBet bf gu (st, sum) r).1
      (processBet bf gu (st, sum) r).2
    refine ⟨?_, ?_, ?_, ?_, ?_⟩
    · rw [f1, e1]
      simp [List.append_assoc]
    · rw [f2, e2, List.countP_cons]
      by_cases hok : betOk bf r
      · simp [hok]
        omega
      · simp [hok]
    · rw [f3, e3]
    · rw [f4, e4]
    · rw [f5, e5]

theorem processGame_sum (feeds : Nat → Option GameFeed)
    (gf bf : Nat → Option String) (acc : DBState × Summary)
    (grp : Nat × List ActiveRow) :
    ((processGame feeds gf bf acc grp).2.errors =
      acc.2.errors ++ gameUnitErrors feeds gf bf grp) ∧
    ((processGame feeds gf bf acc grp).2.bets_updated =
      acc.2.bets_updated + gameUnitUpdated feeds gf bf grp) ∧
    ((processGame feeds gf bf acc grp).2.bets_checked = acc.2.bets_checked) ∧
    ((processGame feeds gf bf acc grp).2.games_tracked = acc.2.games_tracked) ∧
    ((processGame feeds gf bf acc grp).2.duration_seconds =
      acc.2.duration_seconds) := by
  simp only [processGame, gameUnitErrors, gameUnitUpdated]
  cases hfd : feeds grp.1 with
  | none => simp [update_game_stats]
  | some f =>
    simp only [update_game_stats]
    cases hgf : gf grp.1 with
    | some e => simp [addError]
    | none => exact betLoop_sum bf _ grp.2 _ acc.2

theorem gameLoop_sum (feeds : Nat → Option GameFeed)
    (gf bf : Nat → Option String) :
    ∀ (groups : List (Nat × List ActiveRow)) (st : DBState) (sum : Summary),
      ((groups.foldl (processGame feeds gf bf) (st, sum)).2.errors =
        sum.errors ++ (groups.map (gameUnitErrors feeds gf bf)).flatten) ∧
      ((groups.foldl (processGame feeds gf bf) (st, sum)).2.bets_updated =
        sum.bets_updated + (groups.map (gameUnitUpdated feeds gf bf)).sum) ∧
      ((groups.foldl (processGame feeds gf bf) (st, sum)).2.bets_checked =
        sum.bets_checked) ∧
      ((groups.foldl (processGame feeds gf bf) (st, sum)).2.games_tracked =
        sum.games_tracked) ∧
      ((groups.foldl (processGame feeds gf bf) (st, sum)).2.duration_seconds =
        sum.duration_seconds) := by
  intro groups
  induction groups with
  | nil => intro st sum; simp
  | cons grp rest ih =>
    intro st sum
    rw [List.foldl_cons]
    obtain ⟨e1, e2, e3, e4, e5⟩ := processGame_sum feeds gf bf (st, sum) grp
    obtain ⟨f1, f2, f3, f4, f5⟩ := ih (processGame feeds gf bf (st, sum) grp).1
      (processGame feeds gf bf (st, sum) grp).2
    refine ⟨?_, ?_, ?_, ?_, ?_⟩
    · rw [f1, e1]
      simp [List.append_assoc]
    · rw [f2, e2]
      simp [List.map_cons, List.sum_cons]
      omega
    · rw [f3, e3]
    · rw [f4, e4]
    · rw [f5, e5]

/-- C8 amended: `track_all_live_games` is a total function that always
returns a summary carrying the counts, winners, errors and duration fields;
each game group and each bet contributes its error strings and success
count independently of its siblings (a fault is one appended error string,
never an abort); but the wall-clock duration fields are only set on the
normal exit path — the `if not active_bets` early return hands the summary
back without them. -/
theorem run_summary_spec (st : DBState) (feeds : Nat → Option GameFeed)
    (gf bf : Nat → Option String) (elapsed : PyF) :
    ((track_all_live_games st feeds gf bf elapsed).2.bets_checked =
      (get_active_game_bets st).length) ∧
    ((track_all_live_games st feeds gf bf elapsed).2.games_tracked =
      if (get_active_game_bets st).isEmpty then 0
      else (groupByGame (get_active_game_bets st)).length) ∧
    ((track_all_live_games st feeds gf bf elapsed).2.duration_seconds =
      if (get_active_game_bets st).isEmpty then none else some elapsed) ∧
    ((track_all_live_games st feeds gf bf elapsed).2.errors =
      if (get_active_game_bets st).isEmpty then []
      else ((groupByGame (get_active_game_bets st)).map
        (gameUnitErrors feeds gf bf)).flatten) ∧
    ((track_all_live_games st feeds gf bf elapsed).2.bets_updated =
      if (get_active_game_bets st).isEmpty then 0
      else ((groupByGame (get_active_game_bets st)).map
        (gameUnitUpdated feeds gf bf)).sum) := by
  unfold track_all_live_games
  by_cases hA : (get_active_game_bets st).isEmpty
  · rw [if_pos hA]
    simp [hA]
  · rw [if_neg hA]
    obtain ⟨e1, e2, e3, e4, e5⟩ := gameLoop_sum feeds gf bf
      (groupByGame (get_active_game_bets st)) st
      { bets_checked := (get_active_game_bets st).length,
        games_tracked := (groupByGame (get_active_game_bets st)).length }
    simp only [if_neg hA]
    refine ⟨?_, ?_, ?_, ?_, ?_⟩
    · simpa using e3
    · simpa using e4
    · trivial
    · simpa using e1
    · simpa using e2

def c8bet : BetRow :=
  { bet_id := 81, game_id := 80, player_id := some 810, pitcher_id := none,
    team_id := none, bet_type := "Hits", target_value := some ⟨3, 2⟩,
    operator := some "over", units := 1, community_id := 1, status := "Pending" }

def c8st : DBState :=
  { bets := [c8bet],
    games := [{ game_id := 80, status := "Final", inning := 9,
                inning_half := "Bottom", home_score := 2, away_score := 1,
                home_team_id := 1, away_team_id := 2, game_date_today := true }],
    communities := [(1, "Basic")], players := [(810, "A")], player_stats := [],
    pitcher_stats := [], tracking := [], messages := [] }

/-- C8 counterexample: with no active bets (the only bet's game is already
Final) the run returns the summary from the early-return path, which never
reaches the lines that record the wall-clock duration — the claimed
"summary always contains the run's duration" is false there. -/
theorem no_active_bets_summary_lacks_duration :
    c8st.bets ≠ [] ∧
    get_active_game_bets c8st = [] ∧
    (track_all_live_games c8st (fun _ => none) (fun _ => none) (fun _ => none)
      5).2.duration_seconds = none := by decide

def c1won : BetRow :=
  { bet_id := 11, game_id := 10, player_id := some 110, pitcher_id := none,
    team_id := none, bet_type := "Hits", target_value := some ⟨1, 2⟩,
    operator := some "over", units := 1, community_id := 1, status := "Won" }

def c1live : BetRow :=
  { bet_id := 12, game_id := 10, player_id := some 111, pitcher_id := none,
    team_id := none, bet_type := "Hits", target_value := some ⟨3, 2⟩,
    operator := some "over", units := 1, community_id := 1, status := "Live" }

def c1st : DBState :=
  { bets := [c1won, c1live],
    games := [{ game_id := 10, status := "In Progress", inning := 4,
                inning_half := "Top", home_score := 1, away_score := 0,
                home_team_id := 1, away_team_id := 2, game_date_today := true }],
    communities := [(1, "Basic")], players := [(110, "A"), (111, "B")],
    player_stats := [], pitcher_stats := [], tracking := [], messages := [] }

def c1feed : GameFeed :=
  { detailedState := "In Progress", abstractFinal := false, currentInning := 4,
    inningState := "Top", homeScore := 1, awayScore := 0,
    batting := [(110, { atBats := 2, hits := 2, doubles := 0, triples := 0,
                        homeRuns := 0, runs := 0, rbi := 0, baseOnBalls := 0,
                        strikeOuts := 0, stolenBases := 0 }),
                (111, { atBats := 2, hits := 1, doubles := 0, triples := 0,
                        homeRuns := 0, runs := 0, rbi := 0, baseOnBalls := 0,
                        strikeOuts := 0, stolenBases := 0 })],
    pitching := [] }

theorem terminal_status_never_reverts_witness :
    ((c1st.bets.map (fun x => x.bet_id)).Nodup ∧ c1won ∈ c1st.bets ∧
      (c1won.status = "Won" ∨ c1won.status = "Lost")) ∧
    ∀ y ∈ (track_all_live_games c1st (fun g => if g = 10 then some c1feed else none)
        (fun _ => none) (fun _ => none) 2).1.bets,
      y.bet_id = c1won.bet_id → y.status = c1won.status :=
  ⟨⟨by decide, by decide, by decide⟩,
   terminal_status_never_reverts c1st
     (fun g => if g = 10 then some c1feed else none) (fun _ => none)
     (fun _ => none) 2 c1won (by decide) (by decide) (by decide)⟩

theorem under_bet_wins_early_witness :
    flt (progOf c10st c10bet).current_value (progOf c10st c10bet).target_value = true ∧
    (progOf c10st c10bet).is_hit = true ∧
    ∀ y ∈ (update_bet_tracking c10st c10bet (progOf c10st c10bet) c10gu).bets,
      y.bet_id = c10bet.bet_id → y.status = "Won" := by
  refine ⟨by decide, ?_⟩
  exact under_bet_wins_early c10st c10bet (progOf c10st c10bet) "under" c10gu
    (by decide) (by decide) (by decide) (by decide)

end LiveTracker
